import Mathlib

/-!
Shallow embedding of the core of the nba-luck-adjustment repository:
the shot expectation model (src/adjust.py and src/onoff.py), the per-game
lineup/attribution scan (src/onoff.py, compute_adjusted_onoff_for_game)
and the RAPM design-matrix builder (run_rapm.py), together with theorems
settling the frozen claims about them.

Modelling conventions:
* Python floats are embedded as exact rationals (ℚ), Python ints as ℤ.
* Feed records become a typed structure; fields the code reads with .get
  are Option-valued.  Values the code coerces with int()/float()/str()
  are carried at the coerced type, so the coercions are identities.
* Python dicts keyed by team id are embedded as association lists with
  dict semantics (unique keys, insert-or-replace), Python sets of player
  ids as duplicate-free lists (all uses are order-insensitive).
* Python round() is banker's rounding; it is embedded exactly (pyRound).
* The clock parser is embedded for plain decimal literals, the only form
  the feed's PTxxMyy.zzS clocks produce; Python's float() would also
  accept exponent forms, which no claim depends on.
* A KeyError raised inside the scan (a substitution for a team id that is
  not a key of the lineups dict) aborts the game upstream; the embedded
  scan returns none in exactly that situation.
-/

namespace NBA

/-- Python round(): round half to even, to an integer. -/
def pyRound (q : ℚ) : ℤ :=
  let f : ℤ := Int.floor q
  let r : ℚ := q - (f : ℚ)
  if r < 1/2 then f
  else if 1/2 < r then f + 1
  else if f % 2 = 0 then f else f + 1

/-- Python round(x, d): round half to even at d decimal digits. -/
def pyRoundAt (d : ℕ) (q : ℚ) : ℚ :=
  ((pyRound (q * ((10 : ℚ) ^ d))) : ℚ) / ((10 : ℚ) ^ d)

/-- Python's substring test `pat in hay`. -/
def hasSub : List Char → List Char → Bool
  | [], pat => pat.isEmpty
  | c :: rest, pat => pat.isPrefixOf (c :: rest) || hasSub rest pat

/-- Python str.split(sep) for a one-character separator. -/
def splitOnChar (sep : Char) : List Char → List (List Char)
  | [] => [[]]
  | c :: rest =>
    if c = sep then [] :: splitOnChar sep rest
    else
      match splitOnChar sep rest with
      | [] => [[c]]
      | h :: t => (c :: h) :: t

/-- Python str.replace(pat, "") for a non-empty pattern: delete every
occurrence, scanning left to right.  Fuel-driven so the recursion is
structural; `stripPat` supplies sufficient fuel. -/
def stripPatFuel (pat : List Char) : ℕ → List Char → List Char
  | 0, l => l
  | _ + 1, [] => []
  | fuel + 1, c :: rest =>
    if pat ≠ [] ∧ pat.isPrefixOf (c :: rest) then
      stripPatFuel pat fuel (List.drop (pat.length - 1) rest)
    else c :: stripPatFuel pat fuel rest

def stripPat (l pat : List Char) : List Char := stripPatFuel pat l.length l

/-- Python str.lower() (the scanned tokens are all ASCII). -/
def lowerStr (s : String) : String := String.mk (s.data.map Char.toLower)

/-- Value of a digit string (empty or non-digit characters fail). -/
def digitsVal : List Char → ℕ → Option ℕ
  | [], acc => some acc
  | c :: rest, acc =>
    if c.isDigit then digitsVal rest (acc * 10 + (c.toNat - 48)) else none

def digitsToNat : List Char → Option ℕ
  | [] => none
  | l => digitsVal l 0

/-- Python int("...") on an optionally signed digit string. -/
def pyInt (l : List Char) : Option ℤ :=
  match l with
  | '-' :: rest => (digitsToNat rest).map (fun n => -(n : ℤ))
  | '+' :: rest => (digitsToNat rest).map (fun n => (n : ℤ))
  | _ => (digitsToNat l).map (fun n => (n : ℤ))

def decimalNonneg (l : List Char) : Option ℚ :=
  match splitOnChar '.' l with
  | [w] => (digitsToNat w).map (fun n => (n : ℚ))
  | [w, f] =>
    if w = [] ∧ f = [] then none
    else
      match (if w = [] then some 0 else digitsToNat w),
            (if f = [] then some 0 else digitsToNat f) with
      | some wn, some fn => some ((wn : ℚ) + (fn : ℚ) / ((10 : ℚ) ^ f.length))
      | _, _ => none
  | _ => none

/-- Python float("...") on a plain decimal literal. -/
def pyFloat (l : List Char) : Option ℚ :=
  match l with
  | '-' :: rest => (decimalNonneg rest).map (fun q => -q)
  | '+' :: rest => decimalNonneg rest
  | _ => decimalNonneg l

/-- Stable ascending insertion for the action sort (ties keep feed order). -/
def insertLeBy {α : Type} (le : α → α → Bool) (a : α) : List α → List α
  | [] => [a]
  | b :: rest => if le b a then b :: insertLeBy le a rest else a :: b :: rest

/-- Stable ascending sort, as Python's sorted(). -/
def sortBy {α : Type} (le : α → α → Bool) (l : List α) : List α :=
  l.foldl (fun acc a => insertLeBy le a acc) []

/-- Ascending insertion sort on integers (Python sorted() on a set). -/
def insertIntSorted (x : ℤ) : List ℤ → List ℤ
  | [] => [x]
  | y :: rest => if y ≤ x then y :: insertIntSorted x rest else x :: y :: rest

def sortInts (l : List ℤ) : List ℤ := l.foldr insertIntSorted []

/-- Python set.add on a duplicate-free list. -/
def setAdd (l : List ℤ) (x : ℤ) : List ℤ := if x ∈ l then l else l ++ [x]

section AdjustModel

/-! ### src/adjust.py -/

def MU_MIN : ℚ := 32/100
def MU_MAX : ℚ := 36/100
def KAPPA_MIN : ℚ := 200
def KAPPA_MAX : ℚ := 300
def SCALE_ATTEMPTS : ℚ := 1000
def UNASSISTED_MULTIPLIER : ℚ := 112/100
def ASSISTED_MULTIPLIER : ℚ := 95/100
def LEAGUE_AVG_3P : ℚ := 365/1000

/-- get_shot_mix_adjustment: the JSON side table is a parameter mapping a
player id to its (pct_assisted, pct_unassisted) pair (the code's 50.0
defaults for missing keys are part of the supplied pair); unknown players
get multiplier 1. -/
def get_shot_mix_adjustment (mixData : ℤ → Option (ℚ × ℚ)) (player_id : ℤ) : ℚ :=
  match mixData player_id with
  | none => 1
  | some pa => (pa.1 / 100) * ASSISTED_MULTIPLIER + (pa.2 / 100) * UNASSISTED_MULTIPLIER

/-- get_player_prior with a player id supplied (as every caller in the
scan does): sliding (mu, kappa) with mu scaled by the shot-mix multiplier. -/
def get_player_prior (mixData : ℤ → Option (ℚ × ℚ)) (A_r : ℚ) (player_id : ℤ) : ℚ × ℚ :=
  let scale := min (A_r / SCALE_ATTEMPTS) 1
  let mu := MU_MIN + (MU_MAX - MU_MIN) * scale
  let kappa := KAPPA_MIN + (KAPPA_MAX - KAPPA_MIN) * scale
  (mu * get_shot_mix_adjustment mixData player_id, kappa)

/-- The SHOT_TYPE_MULTIPLIERS table keyed by (area, shot_type). -/
def SHOT_TYPE_MULTIPLIERS : List ((String × String) × ℚ) :=
  [ (("corner", "catch_shoot"), (41/100) / LEAGUE_AVG_3P),
    (("corner", "pullup"), (37/100) / LEAGUE_AVG_3P),
    (("corner", "stepback"), (36/100) / LEAGUE_AVG_3P),
    (("corner", "running"), (34/100) / LEAGUE_AVG_3P),
    (("corner", "fadeaway"), (33/100) / LEAGUE_AVG_3P),
    (("corner", "turnaround"), (33/100) / LEAGUE_AVG_3P),
    (("above_break", "catch_shoot"), (38/100) / LEAGUE_AVG_3P),
    (("above_break", "pullup"), (34/100) / LEAGUE_AVG_3P),
    (("above_break", "stepback"), (33/100) / LEAGUE_AVG_3P),
    (("above_break", "running"), (32/100) / LEAGUE_AVG_3P),
    (("above_break", "fadeaway"), (31/100) / LEAGUE_AVG_3P),
    (("above_break", "turnaround"), (31/100) / LEAGUE_AVG_3P) ]

def DEFAULT_MULTIPLIER : ℚ := 1

/-- SHOT_TYPE_MULTIPLIERS.get((area, shot_type), DEFAULT_MULTIPLIER). -/
def get_shot_multiplier (area shot_type : String) : ℚ :=
  ((SHOT_TYPE_MULTIPLIERS.find? (fun e => e.1 == (area, shot_type))).map
      (fun e => e.2)).getD DEFAULT_MULTIPLIER

/-- onoff.py _expected_make_prob: the player-state table is a parameter
mapping player_id to (A_r, M_r); a missing player defaults to (0, 0). -/
def expected_make_prob (mixData : ℤ → Option (ℚ × ℚ))
    (playerState : ℤ → Option (ℚ × ℚ)) (player_id : ℤ)
    (area shot_type : String) : ℚ :=
  let st := (playerState player_id).getD (0, 0)
  let mk := get_player_prior mixData st.1 player_id
  let p_hat := (st.2 + mk.2 * mk.1) / (st.1 + mk.2)
  let multiplier := get_shot_multiplier area shot_type
  max (15/100) (min (55/100) (p_hat * multiplier))

end AdjustModel

section OnOffModel

/-! ### src/onoff.py -/

/-- One play-by-play action record (the fields compute_adjusted_onoff_for_game
reads).  Fields read through .get are Option-valued; the int()/float()/str()
coercions the code wraps them in are identities at these types. -/
structure Action where
  orderNumber : Option ℤ := none
  actionNumber : Option ℤ := none
  period : Option ℤ := none
  clock : Option String := none
  actionType : Option String := none
  teamId : Option ℤ := none
  personId : Option ℤ := none
  subType : Option String := none
  scoreHome : Option ℤ := none
  scoreAway : Option ℤ := none
  shotResult : Option String := none
  descriptor : Option String := none
  description : Option String := none
  xLegacy : Option ℚ := none
  yLegacy : Option ℚ := none
  playerName : Option String := none
  playerNameI : Option String := none
deriving DecidableEq

/-- str(action.get(f) or "").lower() -/
def optLower (o : Option String) : String := lowerStr (o.getD "")

/-- _period_length_seconds -/
def period_length_seconds (period : ℤ) : ℤ :=
  if period ≤ 4 then 12 * 60 else 5 * 60

/-- _parse_clock_seconds on a clock such as "PT11M46.00S". -/
def parse_clock_seconds (clock : Option String) : Option ℤ :=
  match clock with
  | none => none
  | some cs =>
    if cs = ("") then none
    else
      let s := stripPat (stripPat cs.data ("PT").data) ("S").data
      if hasSub s ("M").data then
        match splitOnChar 'M' s with
        | [mm, ss] =>
          match pyInt mm, pyFloat ss with
          | some minutes, some seconds => some (pyRound ((minutes : ℚ) * 60 + seconds))
          | _, _ => none
        | _ => none
      else
        match pyFloat s with
        | some seconds => some (pyRound seconds)
        | none => none

/-- _elapsed_game_seconds -/
def elapsed_game_seconds (period : Option ℤ) (clock : Option String) : Option ℤ :=
  match period with
  | none => none
  | some p =>
    match parse_clock_seconds clock with
    | none => none
    | some remaining =>
      let elapsed_prev : ℤ :=
        if 1 < p then
          (min (p - 1) 4) * 12 * 60 + (if 5 < p then (p - 5) * 5 * 60 else 0)
        else 0
      some (elapsed_prev + (period_length_seconds p - remaining))

/-- _sort_actions: stable ascending sort by (orderNumber, actionNumber),
missing keys read as 0. -/
def sortKeyLe (a b : Action) : Bool :=
  let ka := (a.orderNumber.getD 0, a.actionNumber.getD 0)
  let kb := (b.orderNumber.getD 0, b.actionNumber.getD 0)
  decide (ka.1 < kb.1) || (decide (ka.1 = kb.1) && decide (ka.2 ≤ kb.2))

def sort_actions (actions : List Action) : List Action := sortBy sortKeyLe actions

/-- _classify_shot_type -/
def classify_shot_type (a : Action) : String :=
  let des := optLower a.descriptor
  let desc := optLower a.description
  let text := if des = ("") then desc else des
  if hasSub text.data ("step back").data || hasSub text.data ("stepback").data then ("stepback")
  else if hasSub text.data ("pullup").data || hasSub text.data ("pull-up").data
      || hasSub text.data ("pull up").data then ("pullup")
  else if hasSub text.data ("running").data || hasSub text.data ("driving").data then ("running")
  else if hasSub text.data ("fadeaway").data || hasSub text.data ("fade away").data then ("fadeaway")
  else if hasSub text.data ("turnaround").data || hasSub text.data ("turn around").data then ("turnaround")
  else ("catch_shoot")

/-- _classify_area -/
def classify_area (a : Action) : String :=
  match a.xLegacy, a.yLegacy with
  | some x, some y => if 220 ≤ |x| ∧ y ≤ 100 then ("corner") else ("above_break")
  | _, _ => ("above_break")

/-- PlayerOnOff dataclass (per-player accumulators). -/
structure PStat where
  player_name : String
  team_id : ℤ
  on_pts_for : ℚ := 0
  on_pts_against : ℚ := 0
  on_pts_for_adj : ℚ := 0
  on_pts_against_adj : ℚ := 0
  seconds_on : ℤ := 0
deriving DecidableEq

/-- Association-list lookup with dict key semantics. -/
def dictGet? {β : Type} : List (ℤ × β) → ℤ → Option β
  | [], _ => none
  | e :: rest, k => if k = e.1 then some e.2 else dictGet? rest k

def dictGetD {β : Type} (m : List (ℤ × β)) (k : ℤ) (d : β) : β :=
  (dictGet? m k).getD d

/-- Python dict insert-or-replace (keeps key order, unique keys). -/
def dictSet {β : Type} : List (ℤ × β) → ℤ → β → List (ℤ × β)
  | [], k, v => [(k, v)]
  | e :: rest, k, v => if k = e.1 then (k, v) :: rest else e :: dictSet rest k v

/-- In-place update of an existing key; none is the KeyError case. -/
def dictModify? {β : Type} (m : List (ℤ × β)) (k : ℤ) (f : β → β) :
    Option (List (ℤ × β)) :=
  match dictGet? m k with
  | none => none
  | some v => some (dictSet m k (f v))

/-- The name field of an action: str(a.get("playerName") or a.get("playerNameI") or ""). -/
def actionName (a : Action) : String :=
  let n1 := a.playerName.getD ""
  if n1 = ("") then a.playerNameI.getD "" else n1

/-- player_info pre-pass (lines 221-231): first action carrying a positive
personId and teamId fixes that player's name and team. -/
def buildPlayerInfo (actions : List Action) : ℤ → Option (String × ℤ) :=
  actions.foldl
    (fun m a =>
      let pid := a.personId.getD 0
      let tid := a.teamId.getD 0
      if pid ≤ 0 ∨ tid ≤ 0 then m
      else
        match m pid with
        | some _ => m
        | none => fun q => if q = pid then some (actionName a, tid) else m q)
    (fun _ => none)

/-- The constant inputs of one game scan.  homeId/awayId and the starter
lists arrive from the home/away and starter resolution of lines 205-211
(feed inference with an ingest fallback); playerInfo is the pre-pass. -/
structure Ctx where
  homeId : ℤ
  awayId : ℤ
  playerState : ℤ → Option (ℚ × ℚ)
  shotMix : ℤ → Option (ℚ × ℚ)
  orbRate : ℚ
  ppp : ℚ
  playerInfo : ℤ → Option (String × ℤ)

/-- One emitted stint record (lines 297-319). -/
structure Stint where
  home_lineup : List ℤ
  away_lineup : List ℤ
  seconds : ℤ
  home_pts : ℤ
  away_pts : ℤ
  home_pts_adj : ℚ
  away_pts_adj : ℚ
  start_elapsed : ℤ
  end_elapsed : ℤ
  start_period : ℤ
  start_clock : String
  end_period : ℤ
  end_clock : String
  start_home_score : ℤ
  start_away_score : ℤ
  end_home_score : ℤ
  end_away_score : ℤ
  start_home_score_adj : ℚ
  start_away_score_adj : ℚ
  end_home_score_adj : ℚ
  end_away_score_adj : ℚ
deriving DecidableEq

/-- The mutable state of the scan loop (lines 213-290). -/
structure ScanState where
  lineups : List (ℤ × List ℤ)
  stats : ℤ → Option PStat
  prev_elapsed : ℤ
  prev_home : ℤ
  prev_away : ℤ
  adj_home : ℚ
  adj_away : ℚ
  stints : List Stint
  stint_start_elapsed : ℤ
  stint_start_home : ℤ
  stint_start_away : ℤ
  stint_start_home_adj : ℚ
  stint_start_away_adj : ℚ
  stint_start_period : ℤ
  stint_start_clock : String
  last_period : ℤ
  last_clock : String

/-- stats entries start from player_info (lines 233-239). -/
def initStats (info : ℤ → Option (String × ℤ)) : ℤ → Option PStat :=
  fun pid => (info pid).map (fun nt => { player_name := nt.1, team_id := nt.2 })

/-- lineups = {home: set(starters home), away: set(starters away)} plus the
initial bookkeeping of lines 268-289. -/
def initState (ctx : Ctx) (startersHome startersAway : List ℤ) : ScanState :=
  { lineups :=
      dictSet (dictSet [] ctx.homeId startersHome.eraseDups) ctx.awayId startersAway.eraseDups
    stats := initStats ctx.playerInfo
    prev_elapsed := 0
    prev_home := 0
    prev_away := 0
    adj_home := 0
    adj_away := 0
    stints := []
    stint_start_elapsed := 0
    stint_start_home := 0
    stint_start_away := 0
    stint_start_home_adj := 0
    stint_start_away_adj := 0
    stint_start_period := 1
    stint_start_clock := "PT12M00.00S"
    last_period := 1
    last_clock := "PT12M00.00S" }

/-- _ensure_player (lines 241-247): an absent player is created with zero
ledgers, the pre-pass name, and the team id passed at the call site. -/
def ensureStat (info : ℤ → Option (String × ℤ)) (stats : ℤ → Option PStat)
    (pid tid : ℤ) : PStat :=
  match stats pid with
  | some p => p
  | none => { player_name := ((info pid).map (fun nt => nt.1)).getD "", team_id := tid }

/-- Add pts to one ledger field of every member of lineup L (one loop of
_apply_points); the update is pointwise over set membership. -/
def bumpLedger (info : ℤ → Option (String × ℤ)) (stats : ℤ → Option PStat)
    (L : List ℤ) (tid : ℤ) (f : PStat → PStat) : ℤ → Option PStat :=
  fun pid => if pid ∈ L then some (f (ensureStat info stats pid tid)) else stats pid

/-- _apply_points (lines 249-266). -/
def applyPoints (ctx : Ctx) (team_id : ℤ) (points : ℚ) (adjusted : Bool)
    (s : ScanState) : ScanState :=
  if points = 0 then s
  else if (dictGet? s.lineups team_id).isSome = false then s
  else
    let opp_id := if team_id = ctx.homeId then ctx.awayId else ctx.homeId
    let Lt := dictGetD s.lineups team_id []
    let Lo := dictGetD s.lineups opp_id []
    let forBump : PStat → PStat := fun p =>
      if adjusted then { p with on_pts_for_adj := p.on_pts_for_adj + points }
      else { p with on_pts_for := p.on_pts_for + points }
    let againstBump : PStat → PStat := fun p =>
      if adjusted then { p with on_pts_against_adj := p.on_pts_against_adj + points }
      else { p with on_pts_against := p.on_pts_against + points }
    let stats1 := bumpLedger ctx.playerInfo s.stats Lt team_id forBump
    let stats2 := bumpLedger ctx.playerInfo stats1 Lo opp_id againstBump
    { s with stats := stats2 }

/-- The per-entry seconds accrual of lines 343-347, one lineups dict entry. -/
def accrueEntry (info : ℤ → Option (String × ℤ)) (dt : ℤ)
    (stats : ℤ → Option PStat) (e : ℤ × List ℤ) : ℤ → Option PStat :=
  bumpLedger info stats e.2 e.1 (fun p => { p with seconds_on := p.seconds_on + dt })

/-- Lines 331-348: elapsed-clock update, last period/clock tracking and
time-on-court accrual. -/
def timeBlock (ctx : Ctx) (a : Action) (s : ScanState) : ScanState :=
  match elapsed_game_seconds a.period a.clock with
  | none => s
  | some e =>
    if s.prev_elapsed ≤ e then
      let lp := a.period.getD s.last_period
      let lc :=
        match a.clock with
        | some c => if c = ("") then s.last_clock else c
        | none => s.last_clock
      let dt := e - s.prev_elapsed
      let stats' :=
        if 0 < dt then s.lineups.foldl (accrueEntry ctx.playerInfo dt) s.stats
        else s.stats
      { s with last_period := lp, last_clock := lc, stats := stats', prev_elapsed := e }
    else s

/-- Lines 395-418: score snapshot deltas applied to raw and adjusted
ledgers and the running adjusted team scores. -/
def scoreBlock (ctx : Ctx) (a : Action) (s : ScanState) : ScanState :=
  let nh := a.scoreHome.getD s.prev_home
  let na := a.scoreAway.getD s.prev_away
  let dh := nh - s.prev_home
  let da := na - s.prev_away
  let s1 :=
    if dh ≠ 0 then
      let t1 := applyPoints ctx ctx.homeId (dh : ℚ) false s
      let t2 := applyPoints ctx ctx.homeId (dh : ℚ) true t1
      { t2 with adj_home := t2.adj_home + (dh : ℚ) }
    else s
  let s2 :=
    if da ≠ 0 then
      let t1 := applyPoints ctx ctx.awayId (da : ℚ) false s1
      let t2 := applyPoints ctx ctx.awayId (da : ℚ) true t1
      { t2 with adj_away := t2.adj_away + (da : ℚ) }
    else s1
  { s2 with prev_home := nh, prev_away := na }

/-- Lines 420-436: the 3PT luck adjustment. -/
def threePtBlock (ctx : Ctx) (a : Action) (s : ScanState) : ScanState :=
  if optLower a.actionType = ("3pt") then
    match a.teamId, a.personId with
    | some team_id, some pid =>
      let shot_type := classify_shot_type a
      let area := classify_area a
      let exp_prob := expected_make_prob ctx.shotMix ctx.playerState pid area shot_type
      let actual_make : ℚ := if optLower a.shotResult = ("made") then 1 else 0
      let adj_delta := (exp_prob - actual_make) * (3 - ctx.orbRate * ctx.ppp)
      let s' := applyPoints ctx team_id adj_delta true s
      if team_id = ctx.homeId then { s' with adj_home := s'.adj_home + adj_delta }
      else if team_id = ctx.awayId then { s' with adj_away := s'.adj_away + adj_delta }
      else s'
    | _, _ => s
  else s

/-- _close_stint (lines 291-326). -/
def closeStintF (ctx : Ctx) (s : ScanState) : ScanState :=
  let duration := s.prev_elapsed - s.stint_start_elapsed
  let homeL := dictGetD s.lineups ctx.homeId []
  let awayL := dictGetD s.lineups ctx.awayId []
  let stints' :=
    if 0 < duration ∧ homeL.length = 5 ∧ awayL.length = 5 then
      s.stints ++
        [{ home_lineup := sortInts homeL
           away_lineup := sortInts awayL
           seconds := duration
           home_pts := s.prev_home - s.stint_start_home
           away_pts := s.prev_away - s.stint_start_away
           home_pts_adj := s.adj_home - s.stint_start_home_adj
           away_pts_adj := s.adj_away - s.stint_start_away_adj
           start_elapsed := s.stint_start_elapsed
           end_elapsed := s.prev_elapsed
           start_period := s.stint_start_period
           start_clock := s.stint_start_clock
           end_period := s.last_period
           end_clock := s.last_clock
           start_home_score := s.stint_start_home
           start_away_score := s.stint_start_away
           end_home_score := s.prev_home
           end_away_score := s.prev_away
           start_home_score_adj := s.stint_start_home_adj
           start_away_score_adj := s.stint_start_away_adj
           end_home_score_adj := s.adj_home
           end_away_score_adj := s.adj_away }]
    else s.stints
  { s with
    stints := stints'
    stint_start_elapsed := s.prev_elapsed
    stint_start_home := s.prev_home
    stint_start_away := s.prev_away
    stint_start_home_adj := s.adj_home
    stint_start_away_adj := s.adj_away
    stint_start_period := s.last_period
    stint_start_clock := s.last_clock }

/-- Membership of an action in the substitution batch started by an action
with raw team/period/clock (t, per, cl) (the j-loop of lines 363-371). -/
def batchPred (t : ℤ) (per : Option ℤ) (cl : Option String) (b : Action) : Bool :=
  decide (optLower b.actionType = ("substitution")) &&
    decide (b.teamId = some t) && decide (b.period = per) && decide (b.clock = cl)

/-- str(b.get("subType") or "").lower() -/
def subTypeLower (b : Action) : String := optLower b.subType

/-- Lines 380-384: apply every out of the batch (discard), skipping
members without a personId; accessing a team id that is not a lineups key
is the KeyError case. -/
def applyOuts (t : ℤ) : List Action → List (ℤ × List ℤ) → Option (List (ℤ × List ℤ))
  | [], m => some m
  | b :: rest, m =>
    match b.personId with
    | none => applyOuts t rest m
    | some pid =>
      match dictModify? m t (fun l => l.erase pid) with
      | none => none
      | some m1 => applyOuts t rest m1

/-- Lines 386-390: apply every in of the batch (set add). -/
def applyIns (t : ℤ) : List Action → List (ℤ × List ℤ) → Option (List (ℤ × List ℤ))
  | [], m => some m
  | b :: rest, m =>
    match b.personId with
    | none => applyIns t rest m
    | some pid =>
      match dictModify? m t (fun l => setAdd l pid) with
      | none => none
      | some m1 => applyIns t rest m1

/-- The non-substitution part of one loop iteration. -/
def stepNonSub (ctx : Ctx) (a : Action) (s : ScanState) : ScanState :=
  threePtBlock ctx a (scoreBlock ctx a (timeBlock ctx a s))

/-- The main while-loop (lines 328-438).  Fuel-driven structural recursion;
each step consumes at least one action, so fuel = number of actions
suffices (runScan).  none is the KeyError abort. -/
def scanFuel (ctx : Ctx) : ℕ → List Action → ScanState → Option ScanState
  | _, [], s => some s
  | 0, _ :: _, _ => none
  | fuel + 1, a :: rest, s =>
    let s1 := timeBlock ctx a s
    if optLower a.actionType = ("substitution") then
      let s2 := closeStintF ctx s1
      match a.teamId with
      | none => scanFuel ctx fuel rest s2
      | some t =>
        let pred := batchPred t a.period a.clock
        let batch := a :: rest.takeWhile pred
        let outs := batch.filter (fun b => subTypeLower b = ("out"))
        let ins := batch.filter (fun b => subTypeLower b = ("in"))
        match applyOuts t outs s2.lineups with
        | none => none
        | some m1 =>
          match applyIns t ins m1 with
          | none => none
          | some m2 => scanFuel ctx fuel (rest.dropWhile pred) { s2 with lineups := m2 }
    else
      scanFuel ctx fuel rest (threePtBlock ctx a (scoreBlock ctx a s1))

def runScan (ctx : Ctx) (actions : List Action) (s : ScanState) : Option ScanState :=
  scanFuel ctx actions.length actions s

/-- compute_adjusted_onoff_for_game up to the end of the scan (lines
191-441): sort, build player_info, init lineups from the starter lists,
scan, close the final stint.  The empty-feed early return and the
KeyError abort are both none. -/
def mkCtx (homeId awayId : ℤ) (playerState shotMix : ℤ → Option (ℚ × ℚ))
    (orbRate ppp : ℚ) (actions : List Action) : Ctx :=
  { homeId := homeId, awayId := awayId, playerState := playerState,
    shotMix := shotMix, orbRate := orbRate, ppp := ppp,
    playerInfo := buildPlayerInfo (sort_actions actions) }

def computeGame (homeId awayId : ℤ) (startersHome startersAway : List ℤ)
    (playerState shotMix : ℤ → Option (ℚ × ℚ)) (orbRate ppp : ℚ)
    (actions : List Action) : Option ScanState :=
  let acts := sort_actions actions
  if acts.isEmpty then none
  else
    let ctx := mkCtx homeId awayId playerState shotMix orbRate ppp actions
    (scanFuel ctx acts.length acts (initState ctx startersHome startersAway)).map
      (closeStintF ctx)

/-- official_plus_minus (line 220): created empty and never written. -/
def officialPlusMinus : ℤ → Option ℚ := fun _ => none

/-- One output row (lines 447-494). -/
structure Row where
  game_id : String
  team_id : ℤ
  player_id : ℤ
  player_name : String
  on_pts_for : ℚ
  on_pts_against : ℚ
  on_diff : ℚ
  off_pts_for : ℚ
  off_pts_against : ℚ
  off_diff : ℚ
  on_pts_for_adj : ℚ
  on_pts_against_adj : ℚ
  on_diff_adj : ℚ
  off_pts_for_adj : ℚ
  off_pts_against_adj : ℚ
  off_diff_adj : ℚ
  on_off_diff : ℚ
  on_off_diff_adj : ℚ
  on_diff_reconstructed : ℚ
  off_diff_reconstructed : ℚ
  on_off_diff_reconstructed : ℚ
  minutes_on : ℚ
deriving DecidableEq

/-- team_totals_actual.get / team_totals_adj.get of lines 444-454. -/
def teamTotalActual (ctx : Ctx) (s : ScanState) (tid : ℤ) : ℚ :=
  dictGetD (dictSet (dictSet [] ctx.homeId ((s.prev_home : ℚ))) ctx.awayId ((s.prev_away : ℚ))) tid 0

def teamTotalAdj (ctx : Ctx) (s : ScanState) (tid : ℤ) : ℚ :=
  dictGetD (dictSet (dictSet [] ctx.homeId s.adj_home) ctx.awayId s.adj_away) tid 0

/-- The row built for one stats entry (lines 448-494). -/
def mkRow (ctx : Ctx) (gameId : String) (s : ScanState) (pid : ℤ) (p : PStat) : Row :=
  let team_id := p.team_id
  let opp_id := if team_id = ctx.homeId then ctx.awayId else ctx.homeId
  let team_actual := teamTotalActual ctx s team_id
  let opp_actual := teamTotalActual ctx s opp_id
  let team_adj := teamTotalAdj ctx s team_id
  let opp_adj := teamTotalAdj ctx s opp_id
  let off_for := team_actual - p.on_pts_for
  let off_against := opp_actual - p.on_pts_against
  let off_for_adj := team_adj - p.on_pts_for_adj
  let off_against_adj := opp_adj - p.on_pts_against_adj
  let on_diff_reconstructed := p.on_pts_for - p.on_pts_against
  let off_diff_reconstructed := off_for - off_against
  let on_diff_adj := p.on_pts_for_adj - p.on_pts_against_adj
  let off_diff_adj := off_for_adj - off_against_adj
  let team_margin_actual := team_actual - opp_actual
  let on_diff_official := (officialPlusMinus pid).getD on_diff_reconstructed
  let off_diff_official := team_margin_actual - on_diff_official
  { game_id := String.mk (gameId.data.dropWhile (fun c => c = '0'))
    team_id := team_id
    player_id := pid
    player_name := p.player_name
    on_pts_for := pyRoundAt 3 p.on_pts_for
    on_pts_against := pyRoundAt 3 p.on_pts_against
    on_diff := pyRoundAt 3 on_diff_official
    off_pts_for := pyRoundAt 3 off_for
    off_pts_against := pyRoundAt 3 off_against
    off_diff := pyRoundAt 3 off_diff_official
    on_pts_for_adj := pyRoundAt 3 p.on_pts_for_adj
    on_pts_against_adj := pyRoundAt 3 p.on_pts_against_adj
    on_diff_adj := pyRoundAt 3 on_diff_adj
    off_pts_for_adj := pyRoundAt 3 off_for_adj
    off_pts_against_adj := pyRoundAt 3 off_against_adj
    off_diff_adj := pyRoundAt 3 off_diff_adj
    on_off_diff := pyRoundAt 3 (on_diff_official - off_diff_official)
    on_off_diff_adj := pyRoundAt 3 (on_diff_adj - off_diff_adj)
    on_diff_reconstructed := pyRoundAt 3 on_diff_reconstructed
    off_diff_reconstructed := pyRoundAt 3 off_diff_reconstructed
    on_off_diff_reconstructed := pyRoundAt 3 (on_diff_reconstructed - off_diff_reconstructed)
    minutes_on := pyRoundAt 2 ((p.seconds_on : ℚ) / 60) }

/-- Sum of the seconds field over a stint list. -/
def sumSeconds (l : List Stint) : ℤ := l.foldl (fun acc st => acc + st.seconds) 0

/-- Number of substitution-in actions in a feed (used in the amended
lineup-size bound). -/
def countSubIns (l : List Action) : ℕ :=
  l.countP (fun a =>
    decide (optLower a.actionType = ("substitution")) && decide (subTypeLower a = ("in")))

/-- The personIds applied by the out-loop of a substitution batch
(subType "out", personId present). -/
def batchOutIds (batch : List Action) : List ℤ :=
  (batch.filter (fun b => subTypeLower b = ("out"))).filterMap (fun b => b.personId)

/-- The personIds applied by the in-loop of a substitution batch. -/
def batchInIds (batch : List Action) : List ℤ :=
  (batch.filter (fun b => subTypeLower b = ("in"))).filterMap (fun b => b.personId)

/-- The adjusted for-ledger of a player, 0 when the player has no stats
entry yet (a freshly ensured entry starts at 0). -/
def adjForOf (stats : ℤ → Option PStat) (pid : ℤ) : ℚ :=
  match stats pid with
  | some p => p.on_pts_for_adj
  | none => 0

/-- The adjusted against-ledger of a player. -/
def adjAgainstOf (stats : ℤ → Option PStat) (pid : ℤ) : ℚ :=
  match stats pid with
  | some p => p.on_pts_against_adj
  | none => 0

/-- A rational that is (the cast of) an integer. -/
def intValued (q : ℚ) : Prop := ∃ n : ℤ, q = (n : ℚ)

/-- The raw (non-adjusted) per-player ledgers hold integer values: the scan
only ever adds integer score deltas to them. -/
def rawLedgersInt (stats : ℤ → Option PStat) : Prop :=
  ∀ pid p, stats pid = some p → intValued p.on_pts_for ∧ intValued p.on_pts_against

end OnOffModel

section RapmModel

/-! ### run_rapm.py -/

/-- One row of the stints CSV as build_design_matrix reads it. -/
structure StintRow where
  home_p1 : Option ℤ := none
  home_p2 : Option ℤ := none
  home_p3 : Option ℤ := none
  home_p4 : Option ℤ := none
  home_p5 : Option ℤ := none
  away_p1 : Option ℤ := none
  away_p2 : Option ℤ := none
  away_p3 : Option ℤ := none
  away_p4 : Option ℤ := none
  away_p5 : Option ℤ := none
  seconds : ℤ := 0
  home_pts : ℚ := 0
  away_pts : ℚ := 0
  home_pts_adj : ℚ := 0
  away_pts_adj : ℚ := 0
deriving DecidableEq

def homeCols (r : StintRow) : List (Option ℤ) :=
  [r.home_p1, r.home_p2, r.home_p3, r.home_p4, r.home_p5]

def awayCols (r : StintRow) : List (Option ℤ) :=
  [r.away_p1, r.away_p2, r.away_p3, r.away_p4, r.away_p5]

/-- load_stints: keep stints with seconds >= min_seconds (default 10). -/
def load_stints (min_seconds : ℤ) (rows : List StintRow) : List StintRow :=
  rows.filter (fun r => min_seconds ≤ r.seconds)

/-- get_player_list_and_index: the sorted list of distinct player ids
appearing in the ten player columns. -/
def player_list (rows : List StintRow) : List ℤ :=
  sortInts ((rows.flatMap (fun r => (homeCols r ++ awayCols r).filterMap id)).eraseDups)

/-- The COO triplets one stint contributes: (row index, player id, value);
+1 per home column, then -1 per away column, each guarded by the
player_to_idx membership test of lines 80 and 90. -/
def tripletsFor (rows : List StintRow) (i : ℕ) (r : StintRow) : List (ℕ × ℤ × ℚ) :=
  ((homeCols r).filterMap id).filterMap
      (fun pid => if pid ∈ player_list rows then some (i, pid, (1 : ℚ)) else none) ++
    ((awayCols r).filterMap id).filterMap
      (fun pid => if pid ∈ player_list rows then some (i, pid, (-1 : ℚ)) else none)

/-- All COO triplets of the design matrix (the row_indices/col_indices/data
lists of lines 70-93). -/
def designTriplets (rows : List StintRow) : List (ℕ × ℤ × ℚ) :=
  rows.enum.flatMap (fun p => tripletsFor rows p.1 p.2)

/-- scipy csr_matrix semantics: the (i, pid) entry is the sum of the data
values of all triplets at that coordinate (duplicates are summed). -/
def designEntry (rows : List StintRow) (i : ℕ) (pid : ℤ) : ℚ :=
  ((designTriplets rows).filter (fun t => decide (t.1 = i) && decide (t.2.1 = pid))).foldl
    (fun acc t => acc + t.2.2) 0

/-- possessions = np.maximum(seconds / 24, 0.1). -/
def possessions (r : StintRow) : ℚ := max ((r.seconds : ℚ) / 24) (1/10)

/-- point_diff per the use_adjusted flag (lines 102-105). -/
def pointDiff (use_adjusted : Bool) (r : StintRow) : ℚ :=
  if use_adjusted then r.home_pts_adj - r.away_pts_adj else r.home_pts - r.away_pts

/-- y = (point_diff / possessions) * 100. -/
def targetY (use_adjusted : Bool) (r : StintRow) : ℚ :=
  pointDiff use_adjusted r / possessions r * 100

/-- weights = np.sqrt(possessions).  The square root of a rational is a
real; this single definition is symbolic (noncomputable), and the theorems
about it are equations between square-root terms. -/
noncomputable def weightW (r : StintRow) : ℝ := Real.sqrt ((possessions r : ℚ) : ℝ)

/-- Number of rows of the design matrix: shape = (n_stints, n_players). -/
def designRowCount (rows : List StintRow) : ℕ := rows.length

end RapmModel

section ConcreteFeeds

/-! ### Concrete feeds used by witnesses and counterexamples -/

/-- A minimal well-formed feed: period start, a 2-point make by player 1
(home team 100), a substitution taking player 5 out with nobody coming in,
then a later action.  Home starters 1-5, away starters 11-15. -/
def exFeed : List Action :=
  [ { orderNumber := some 1, period := some 1, clock := some "PT12M00.00S",
      actionType := some "period" },
    { orderNumber := some 2, period := some 1, clock := some "PT10M20.00S",
      actionType := some "2pt", teamId := some 100, personId := some 1,
      scoreHome := some 2, scoreAway := some 0, playerName := some "A" },
    { orderNumber := some 3, period := some 1, clock := some "PT10M20.00S",
      actionType := some "substitution", teamId := some 100, personId := some 5,
      subType := some "out" },
    { orderNumber := some 4, period := some 1, clock := some "PT8M40.00S",
      actionType := some "rebound" } ]

def exCtx : Ctx := mkCtx 100 200 (fun _ => none) (fun _ => none) (1/4) (11/10) exFeed

def exGame : Option ScanState :=
  computeGame 100 200 [1, 2, 3, 4, 5] [11, 12, 13, 14, 15]
    (fun _ => none) (fun _ => none) (1/4) (11/10) exFeed

def exState : ScanState := exGame.get (by decide!)

def exStat1 : PStat := (exState.stats 1).get (by decide!)

/-- A feed whose only substitution batch has one "in" and no "out": the
home lineup grows to six players. -/
def c4Feed : List Action :=
  [ { orderNumber := some 1, period := some 1, clock := some "PT12M00.00S",
      actionType := some "period" },
    { orderNumber := some 2, period := some 1, clock := some "PT11M00.00S",
      actionType := some "substitution", teamId := some 100, personId := some 6,
      subType := some "in" } ]

def c4Ctx : Ctx := mkCtx 100 200 (fun _ => none) (fun _ => none) (1/4) (11/10) c4Feed

def c4Game : Option ScanState :=
  computeGame 100 200 [1, 2, 3, 4, 5] [11, 12, 13, 14, 15]
    (fun _ => none) (fun _ => none) (1/4) (11/10) c4Feed

def c4State : ScanState := c4Game.get (by decide!)

def c4Scan : Option ScanState :=
  scanFuel c4Ctx (sort_actions c4Feed).length (sort_actions c4Feed)
    (initState c4Ctx [1, 2, 3, 4, 5] [11, 12, 13, 14, 15])

def c4ScanState : ScanState := c4Scan.get (by decide!)

/-- The substitution action of exFeed, reused by the C3 witness. -/
def c3SubAction : Action :=
  { orderNumber := some 3, period := some 1, clock := some "PT10M20.00S",
    actionType := some "substitution", teamId := some 100, personId := some 5,
    subType := some "out" }

/-- A made three by home player 1 with both lineups at their starters,
reused by the C5 witness. -/
def c5Action : Action :=
  { orderNumber := some 2, period := some 1, clock := some "PT10M20.00S",
    actionType := some "3pt", teamId := some 100, personId := some 1,
    scoreHome := some 3, scoreAway := some 0, shotResult := some "Made" }

def c5State : ScanState := initState exCtx [1, 2, 3, 4, 5] [11, 12, 13, 14, 15]

/-- One well-formed 48-second stint row and a 5-second row that the
min_seconds=10 filter drops, reused by the C9 witness. -/
def c9Row : StintRow :=
  { home_p1 := some 1, home_p2 := some 2, home_p3 := some 3, home_p4 := some 4,
    home_p5 := some 5, away_p1 := some 11, away_p2 := some 12, away_p3 := some 13,
    away_p4 := some 14, away_p5 := some 15, seconds := 48, home_pts := 4, away_pts := 2,
    home_pts_adj := 4, away_pts_adj := 2 }

def c9Short : StintRow := { c9Row with seconds := 5 }

def c9Rows0 : List StintRow := [c9Row, c9Short]

end ConcreteFeeds

section Claims

/-! ### Theorems settling the claims -/

/-! #### Helper: mechanics of pyRound and integer values -/

theorem foldl_preserve {α β : Type} (P : β → Prop) (f : β → α → β)
    (hf : ∀ b a, P b → P (f b a)) :
    ∀ (l : List α) (b : β), P b → P (l.foldl f b) := by
  intro l
  induction l with
  | nil => intro b hb; exact hb
  | cons x xs ih => intro b hb; exact ih _ (hf _ _ hb)

theorem intValued_zero : intValued 0 := ⟨0, by norm_num⟩

theorem intValued_intCast (n : ℤ) : intValued ((n : ℚ)) := ⟨n, rfl⟩

theorem intValued_add {a b : ℚ} (ha : intValued a) (hb : intValued b) :
    intValued (a + b) := by
  obtain ⟨m, rfl⟩ := ha
  obtain ⟨n, rfl⟩ := hb
  exact ⟨m + n, by push_cast; ring⟩

theorem intValued_sub {a b : ℚ} (ha : intValued a) (hb : intValued b) :
    intValued (a - b) := by
  obtain ⟨m, rfl⟩ := ha
  obtain ⟨n, rfl⟩ := hb
  exact ⟨m - n, by push_cast; ring⟩

theorem pyRound_intCast (n : ℤ) : pyRound ((n : ℚ)) = n := by
  unfold pyRound
  rw [Int.floor_intCast]
  norm_num

theorem pyRoundAt_intValued {q : ℚ} (d : ℕ) (h : intValued q) : pyRoundAt d q = q := by
  obtain ⟨n, rfl⟩ := h
  unfold pyRoundAt
  have h1 : (n : ℚ) * ((10 : ℚ) ^ d) = ((n * 10 ^ d : ℤ) : ℚ) := by push_cast; ring
  rw [h1, pyRound_intCast]
  have h2 : ((10 : ℚ) ^ d) ≠ 0 := by positivity
  push_cast
  field_simp

/-! #### Structural lemmas about the scan blocks -/

theorem closeStintF_stats (ctx : Ctx) (s : ScanState) :
    (closeStintF ctx s).stats = s.stats := rfl

theorem closeStintF_lineups (ctx : Ctx) (s : ScanState) :
    (closeStintF ctx s).lineups = s.lineups := rfl

theorem timeBlock_lineups (ctx : Ctx) (a : Action) (s : ScanState) :
    (timeBlock ctx a s).lineups = s.lineups := by
  unfold timeBlock
  cases elapsed_game_seconds a.period a.clock with
  | none => rfl
  | some e => dsimp only; split_ifs <;> rfl

theorem applyPoints_lineups (ctx : Ctx) (tid : ℤ) (pts : ℚ) (adj : Bool) (s : ScanState) :
    (applyPoints ctx tid pts adj s).lineups = s.lineups := by
  unfold applyPoints
  split_ifs <;> rfl

theorem scoreBlock_lineups (ctx : Ctx) (a : Action) (s : ScanState) :
    (scoreBlock ctx a s).lineups = s.lineups := by
  unfold scoreBlock
  dsimp only
  split_ifs <;> simp only [applyPoints_lineups]

theorem threePtBlock_lineups (ctx : Ctx) (a : Action) (s : ScanState) :
    (threePtBlock ctx a s).lineups = s.lineups := by
  unfold threePtBlock
  by_cases h1 : optLower a.actionType = ("3pt")
  · rw [if_pos h1]
    cases a.teamId with
    | none => cases a.personId <;> rfl
    | some t =>
      cases a.personId with
      | none => rfl
      | some pid =>
        dsimp only
        split_ifs <;> simp only [applyPoints_lineups]
  · rw [if_neg h1]

/-- Generic preservation through the scan loop for predicates that every
block preserves and that do not constrain the lineups dict. -/
theorem scanFuel_preserve (ctx : Ctx) (P : ScanState → Prop)
    (hTime : ∀ a s, P s → P (timeBlock ctx a s))
    (hClose : ∀ s, P s → P (closeStintF ctx s))
    (hScore : ∀ a s, P s → P (scoreBlock ctx a s))
    (hThree : ∀ a s, P s → P (threePtBlock ctx a s))
    (hLineups : ∀ s m, P s → P { s with lineups := m }) :
    ∀ (fuel : ℕ) (acts : List Action) (s s' : ScanState),
      scanFuel ctx fuel acts s = some s' → P s → P s' := by
  intro fuel
  induction fuel with
  | zero =>
    intro acts s s' h hP
    cases acts with
    | nil =>
      simp only [scanFuel, Option.some.injEq] at h
      exact h ▸ hP
    | cons a rest => simp [scanFuel] at h
  | succ f ih =>
    intro acts s s' h hP
    cases acts with
    | nil =>
      simp only [scanFuel, Option.some.injEq] at h
      exact h ▸ hP
    | cons a rest =>
      simp only [scanFuel] at h
      by_cases hsub : optLower a.actionType = ("substitution")
      · rw [if_pos hsub] at h
        cases hteam : a.teamId with
        | none =>
          rw [hteam] at h
          exact ih rest _ s' h (hClose _ (hTime a s hP))
        | some t =>
          rw [hteam] at h
          dsimp only at h
          cases ho : applyOuts t
              ((a :: List.takeWhile (batchPred t a.period a.clock) rest).filter
                (fun b => subTypeLower b = ("out")))
              (closeStintF ctx (timeBlock ctx a s)).lineups with
          | none => rw [ho] at h; simp at h
          | some m1 =>
            rw [ho] at h
            dsimp only at h
            cases hi : applyIns t
                ((a :: List.takeWhile (batchPred t a.period a.clock) rest).filter
                  (fun b => subTypeLower b = ("in"))) m1 with
            | none => rw [hi] at h; simp at h
            | some m2 =>
              rw [hi] at h
              dsimp only at h
              exact ih _ _ s' h (hLineups _ _ (hClose _ (hTime a s hP)))
      · rw [if_neg hsub] at h
        exact ih rest _ s' h (hThree _ _ (hScore _ _ (hTime a s hP)))

/-! #### The integer-valued raw-ledger invariant -/

theorem rawLedgersInt_bump (info : ℤ → Option (String × ℤ)) (stats : ℤ → Option PStat)
    (L : List ℤ) (tid : ℤ) (f : PStat → PStat)
    (hs : rawLedgersInt stats)
    (hf : ∀ p, intValued p.on_pts_for ∧ intValued p.on_pts_against →
        intValued (f p).on_pts_for ∧ intValued (f p).on_pts_against) :
    rawLedgersInt (bumpLedger info stats L tid f) := by
  intro pid p hp
  unfold bumpLedger at hp
  by_cases hmem : pid ∈ L
  · rw [if_pos hmem, Option.some.injEq] at hp
    subst hp
    apply hf
    unfold ensureStat
    cases hst : stats pid with
    | some q => exact hs pid q hst
    | none => exact ⟨intValued_zero, intValued_zero⟩
  · rw [if_neg hmem] at hp
    exact hs pid p hp

theorem rawLedgersInt_applyPoints (ctx : Ctx) (tid : ℤ) (points : ℚ) (adj : Bool)
    (s : ScanState) (hs : rawLedgersInt s.stats)
    (hpts : adj = false → intValued points) :
    rawLedgersInt (applyPoints ctx tid points adj s).stats := by
  unfold applyPoints
  by_cases h1 : points = 0
  · rw [if_pos h1]; exact hs
  · rw [if_neg h1]
    by_cases h2 : (dictGet? s.lineups tid).isSome = false
    · rw [if_pos h2]; exact hs
    · rw [if_neg h2]
      dsimp only
      apply rawLedgersInt_bump
      · apply rawLedgersInt_bump _ _ _ _ _ hs
        intro p hp
        cases adj with
        | true => exact ⟨hp.1, hp.2⟩
        | false => exact ⟨intValued_add hp.1 (hpts rfl), hp.2⟩
      · intro p hp
        cases adj with
        | true => exact ⟨hp.1, hp.2⟩
        | false => exact ⟨hp.1, intValued_add hp.2 (hpts rfl)⟩

theorem rawLedgersInt_timeBlock (ctx : Ctx) (a : Action) (s : ScanState)
    (hs : rawLedgersInt s.stats) : rawLedgersInt (timeBlock ctx a s).stats := by
  unfold timeBlock
  cases elapsed_game_seconds a.period a.clock with
  | none => exact hs
  | some e =>
    dsimp only
    split_ifs with h1 h2
    · apply foldl_preserve (fun st => rawLedgersInt st) _ _ s.lineups s.stats hs
      intro st ent hst
      apply rawLedgersInt_bump _ _ _ _ _ hst
      intro p hp
      simpa using hp
    · exact hs
    · exact hs

theorem rawLedgersInt_scoreBlock (ctx : Ctx) (a : Action) (s : ScanState)
    (hs : rawLedgersInt s.stats) : rawLedgersInt (scoreBlock ctx a s).stats := by
  have happ : ∀ (tid d : ℤ) (st : ScanState), rawLedgersInt st.stats →
      rawLedgersInt (applyPoints ctx tid ((d : ℚ)) true
        (applyPoints ctx tid ((d : ℚ)) false st)).stats := by
    intro tid d st hst
    exact rawLedgersInt_applyPoints ctx tid _ true _
      (rawLedgersInt_applyPoints ctx tid _ false st hst (fun _ => intValued_intCast d))
      (fun _ => intValued_intCast d)
  unfold scoreBlock
  dsimp only
  split_ifs with h1 h2 h3
  · exact happ _ _ _ (happ _ _ _ hs)
  · exact happ _ _ _ hs
  · exact happ _ _ _ hs
  · exact hs

theorem rawLedgersInt_threePtBlock (ctx : Ctx) (a : Action) (s : ScanState)
    (hs : rawLedgersInt s.stats) : rawLedgersInt (threePtBlock ctx a s).stats := by
  unfold threePtBlock
  by_cases h1 : optLower a.actionType = ("3pt")
  · rw [if_pos h1]
    cases a.teamId with
    | none => cases a.personId <;> exact hs
    | some t =>
      cases a.personId with
      | none => exact hs
      | some pid =>
        dsimp only
        split_ifs <;>
          exact rawLedgersInt_applyPoints ctx t _ true s hs (fun hf => by simp at hf)
  · rw [if_neg h1]; exact hs

theorem rawLedgersInt_initStats (info : ℤ → Option (String × ℤ)) :
    rawLedgersInt (initStats info) := by
  intro pid p hp
  unfold initStats at hp
  cases hinfo : info pid with
  | none => rw [hinfo] at hp; simp at hp
  | some nt =>
    rw [hinfo] at hp
    simp only [Option.map_some', Option.some.injEq] at hp
    subst hp
    exact ⟨intValued_zero, intValued_zero⟩

/-- rawLedgersInt holds for any successful full-game computation. -/
theorem computeGame_rawLedgersInt (homeId awayId : ℤ)
    (startersHome startersAway : List ℤ)
    (playerState shotMix : ℤ → Option (ℚ × ℚ)) (orbRate ppp : ℚ)
    (actions : List Action) (s' : ScanState)
    (hc : computeGame homeId awayId startersHome startersAway playerState shotMix
      orbRate ppp actions = some s') :
    rawLedgersInt s'.stats := by
  unfold computeGame at hc
  by_cases he : (sort_actions actions).isEmpty
  · simp [he] at hc
  · simp only [he, Bool.false_eq_true, if_false] at hc
    cases hsf : scanFuel (mkCtx homeId awayId playerState shotMix orbRate ppp actions)
        (sort_actions actions).length (sort_actions actions)
        (initState (mkCtx homeId awayId playerState shotMix orbRate ppp actions)
          startersHome startersAway) with
    | none => rw [hsf] at hc; simp at hc
    | some sf =>
      rw [hsf] at hc
      simp only [Option.map_some', Option.some.injEq] at hc
      subst hc
      rw [closeStintF_stats]
      refine scanFuel_preserve _ (fun st => rawLedgersInt st.stats)
        (fun a s hP => rawLedgersInt_timeBlock _ a s hP)
        (fun s hP => hP)
        (fun a s hP => rawLedgersInt_scoreBlock _ a s hP)
        (fun a s hP => rawLedgersInt_threePtBlock _ a s hP)
        (fun s m hP => hP)
        _ _ _ _ hsf ?_
      exact rawLedgersInt_initStats _

/-- The team-total dicts of lines 444-445 only hold integer values. -/
theorem teamTotalActual_intValued (ctx : Ctx) (s : ScanState) (tid : ℤ) :
    intValued (teamTotalActual ctx s tid) := by
  unfold teamTotalActual dictGetD
  simp only [dictSet, dictGet?]
  split_ifs <;>
    simp only [dictGet?, Option.getD_some, Option.getD_none] <;>
    split_ifs <;>
    exact intValued_intCast _

/-- The shot-difficulty table only holds nonnegative values. -/
theorem get_shot_multiplier_nonneg (area shot_type : String) :
    0 ≤ get_shot_multiplier area shot_type := by
  unfold get_shot_multiplier
  cases hf : SHOT_TYPE_MULTIPLIERS.find? (fun e => e.1 == (area, shot_type)) with
  | none => norm_num [DEFAULT_MULTIPLIER]
  | some e =>
    have hmem := List.mem_of_find?_eq_some hf
    simp only [SHOT_TYPE_MULTIPLIERS, List.mem_cons, List.not_mem_nil, or_false] at hmem
    simp only [Option.map_some', Option.getD_some]
    rcases hmem with rfl | rfl | rfl | rfl | rfl | rfl | rfl | rfl | rfl | rfl | rfl | rfl <;>
      norm_num [LEAGUE_AVG_3P]

/-- C1: for every player id, player-state table (and shot-mix table), area
string and shot-type string, the expected make probability returned by
_expected_make_prob lies in the closed interval [0.15, 0.55]. -/
theorem claim_C1_expected_prob_in_bounds
    (mixData playerState : ℤ → Option (ℚ × ℚ)) (player_id : ℤ)
    (area shot_type : String) :
    15/100 ≤ expected_make_prob mixData playerState player_id area shot_type ∧
      expected_make_prob mixData playerState player_id area shot_type ≤ 55/100 := by
  unfold expected_make_prob
  refine ⟨le_max_left _ _, max_le (by norm_num) (min_le_left _ _)⟩

/-- C8: with A_r held fixed (and nonnegative, as the state table stores
weighted attempt counts), increasing M_r never decreases the expected make
probability. -/
theorem claim_C8_monotone_in_makes
    (mixData ps ps' : ℤ → Option (ℚ × ℚ)) (player_id : ℤ)
    (area shot_type : String) (A M M' : ℚ)
    (hA : 0 ≤ A) (hMM : M ≤ M')
    (h1 : (ps player_id).getD (0, 0) = (A, M))
    (h2 : (ps' player_id).getD (0, 0) = (A, M')) :
    expected_make_prob mixData ps player_id area shot_type ≤
      expected_make_prob mixData ps' player_id area shot_type := by
  simp only [expected_make_prob, get_player_prior, h1, h2]
  have hscale : 0 ≤ min (A / SCALE_ATTEMPTS) 1 :=
    le_min (div_nonneg hA (by norm_num [SCALE_ATTEMPTS])) (by norm_num)
  have hk : (0 : ℚ) < A + (KAPPA_MIN + (KAPPA_MAX - KAPPA_MIN) * min (A / SCALE_ATTEMPTS) 1) := by
    unfold KAPPA_MIN KAPPA_MAX
    nlinarith
  have hnum :
      (M + (KAPPA_MIN + (KAPPA_MAX - KAPPA_MIN) * min (A / SCALE_ATTEMPTS) 1) *
          ((MU_MIN + (MU_MAX - MU_MIN) * min (A / SCALE_ATTEMPTS) 1) *
            get_shot_mix_adjustment mixData player_id)) ≤
      (M' + (KAPPA_MIN + (KAPPA_MAX - KAPPA_MIN) * min (A / SCALE_ATTEMPTS) 1) *
          ((MU_MIN + (MU_MAX - MU_MIN) * min (A / SCALE_ATTEMPTS) 1) *
            get_shot_mix_adjustment mixData player_id)) :=
    add_le_add_right hMM _
  have hdiv := (div_le_div_iff_of_pos_right hk).mpr hnum
  have hmul := mul_le_mul_of_nonneg_right hdiv (get_shot_multiplier_nonneg area shot_type)
  exact max_le_max le_rfl (min_le_min le_rfl hmul)

/-- Witness for C8 at a concrete input. -/
theorem claim_C8_witness :
    (0 : ℚ) ≤ 400 ∧ (140 : ℚ) ≤ 150 ∧
      expected_make_prob (fun _ => none) (fun _ => some (400, 140)) 7 "corner" "catch_shoot" ≤
        expected_make_prob (fun _ => none) (fun _ => some (400, 150)) 7 "corner" "catch_shoot" :=
  ⟨by norm_num, by norm_num,
    claim_C8_monotone_in_makes (fun _ => none) (fun _ => some (400, 140))
      (fun _ => some (400, 150)) 7 "corner" "catch_shoot" 400 140 150
      (by norm_num) (by norm_num) rfl rfl⟩

theorem mkCtx_homeId (h a : ℤ) (ps mix : ℤ → Option (ℚ × ℚ)) (o p : ℚ) (acts : List Action) :
    (mkCtx h a ps mix o p acts).homeId = h := rfl

theorem mkCtx_awayId (h a : ℤ) (ps mix : ℤ → Option (ℚ × ℚ)) (o p : ℚ) (acts : List Action) :
    (mkCtx h a ps mix o p acts).awayId = a := rfl

/-- C7: for every output row of a successful game computation, the rounded
on_diff plus the rounded off_diff equals the team's final margin (final
team score minus final opponent score, with the official-override map
consulted exactly as the code does). -/
theorem claim_C7_on_off_additivity
    (homeId awayId : ℤ) (startersHome startersAway : List ℤ)
    (playerState shotMix : ℤ → Option (ℚ × ℚ)) (orbRate ppp : ℚ)
    (actions : List Action) (gameId : String) (s' : ScanState) (pid : ℤ) (p : PStat)
    (hc : computeGame homeId awayId startersHome startersAway playerState shotMix
      orbRate ppp actions = some s')
    (hp : s'.stats pid = some p) :
    (mkRow (mkCtx homeId awayId playerState shotMix orbRate ppp actions) gameId s' pid p).on_diff +
      (mkRow (mkCtx homeId awayId playerState shotMix orbRate ppp actions) gameId s' pid p).off_diff =
      teamTotalActual (mkCtx homeId awayId playerState shotMix orbRate ppp actions) s' p.team_id -
        teamTotalActual (mkCtx homeId awayId playerState shotMix orbRate ppp actions) s'
          (if p.team_id = homeId then awayId else homeId) := by
  obtain ⟨hf, ha⟩ := computeGame_rawLedgersInt homeId awayId startersHome startersAway
    playerState shotMix orbRate ppp actions s' hc pid p hp
  have hrec : intValued (p.on_pts_for - p.on_pts_against) := intValued_sub hf ha
  have hm1 := teamTotalActual_intValued
    (mkCtx homeId awayId playerState shotMix orbRate ppp actions) s' p.team_id
  have hm2 := teamTotalActual_intValued
    (mkCtx homeId awayId playerState shotMix orbRate ppp actions) s'
    (if p.team_id = homeId then awayId else homeId)
  have hoff : intValued
      ((teamTotalActual (mkCtx homeId awayId playerState shotMix orbRate ppp actions) s' p.team_id -
        teamTotalActual (mkCtx homeId awayId playerState shotMix orbRate ppp actions) s'
          (if p.team_id = homeId then awayId else homeId)) -
        (p.on_pts_for - p.on_pts_against)) :=
    intValued_sub (intValued_sub hm1 hm2) hrec
  simp only [mkRow, mkCtx_homeId, mkCtx_awayId, officialPlusMinus, Option.getD_none]
  rw [pyRoundAt_intValued 3 hrec, pyRoundAt_intValued 3 hoff]
  ring

/-- Witness for C7 on the concrete example game. -/
theorem claim_C7_witness :
    computeGame 100 200 [1, 2, 3, 4, 5] [11, 12, 13, 14, 15]
        (fun _ => none) (fun _ => none) (1/4) (11/10) exFeed = some exState ∧
      exState.stats 1 = some exStat1 ∧
      (mkRow exCtx "0022400001" exState 1 exStat1).on_diff +
          (mkRow exCtx "0022400001" exState 1 exStat1).off_diff =
        teamTotalActual exCtx exState exStat1.team_id -
          teamTotalActual exCtx exState (if exStat1.team_id = 100 then 200 else 100) :=
  ⟨(Option.some_get _).symm, (Option.some_get _).symm,
    claim_C7_on_off_additivity 100 200 [1, 2, 3, 4, 5] [11, 12, 13, 14, 15]
      (fun _ => none) (fun _ => none) (1/4) (11/10) exFeed "0022400001" exState 1 exStat1
      (Option.some_get _).symm (Option.some_get _).symm⟩

/-- C10: the official plus-minus map is the empty map, so for every output
row of a successful run on_diff is the rounded reconstructed on-court
differential and off_diff is the team margin minus that reconstructed
value; the documented official-boxscore override never takes effect. -/
theorem claim_C10_official_override_inert
    (homeId awayId : ℤ) (startersHome startersAway : List ℤ)
    (playerState shotMix : ℤ → Option (ℚ × ℚ)) (orbRate ppp : ℚ)
    (actions : List Action) (gameId : String) (s' : ScanState) (pid : ℤ) (p : PStat)
    (hc : computeGame homeId awayId startersHome startersAway playerState shotMix
      orbRate ppp actions = some s')
    (hp : s'.stats pid = some p) :
    officialPlusMinus pid = none ∧
      (mkRow (mkCtx homeId awayId playerState shotMix orbRate ppp actions) gameId s' pid p).on_diff =
        pyRoundAt 3 (p.on_pts_for - p.on_pts_against) ∧
      (mkRow (mkCtx homeId awayId playerState shotMix orbRate ppp actions) gameId s' pid p).off_diff =
        (teamTotalActual (mkCtx homeId awayId playerState shotMix orbRate ppp actions) s' p.team_id -
          teamTotalActual (mkCtx homeId awayId playerState shotMix orbRate ppp actions) s'
            (if p.team_id = homeId then awayId else homeId)) -
          (p.on_pts_for - p.on_pts_against) := by
  obtain ⟨hf, ha⟩ := computeGame_rawLedgersInt homeId awayId startersHome startersAway
    playerState shotMix orbRate ppp actions s' hc pid p hp
  have hrec : intValued (p.on_pts_for - p.on_pts_against) := intValued_sub hf ha
  have hm1 := teamTotalActual_intValued
    (mkCtx homeId awayId playerState shotMix orbRate ppp actions) s' p.team_id
  have hm2 := teamTotalActual_intValued
    (mkCtx homeId awayId playerState shotMix orbRate ppp actions) s'
    (if p.team_id = homeId then awayId else homeId)
  have hoff : intValued
      ((teamTotalActual (mkCtx homeId awayId playerState shotMix orbRate ppp actions) s' p.team_id -
        teamTotalActual (mkCtx homeId awayId playerState shotMix orbRate ppp actions) s'
          (if p.team_id = homeId then awayId else homeId)) -
        (p.on_pts_for - p.on_pts_against)) :=
    intValued_sub (intValued_sub hm1 hm2) hrec
  refine ⟨rfl, ?_, ?_⟩
  · simp only [mkRow, mkCtx_homeId, mkCtx_awayId, officialPlusMinus, Option.getD_none]
  · simp only [mkRow, mkCtx_homeId, mkCtx_awayId, officialPlusMinus, Option.getD_none]
    rw [pyRoundAt_intValued 3 hoff]

/-- Witness for C10 on the concrete example game. -/
theorem claim_C10_witness :
    computeGame 100 200 [1, 2, 3, 4, 5] [11, 12, 13, 14, 15]
        (fun _ => none) (fun _ => none) (1/4) (11/10) exFeed = some exState ∧
      exState.stats 1 = some exStat1 ∧
      officialPlusMinus 1 = none ∧
      (mkRow exCtx "0022400001" exState 1 exStat1).on_diff =
        pyRoundAt 3 (exStat1.on_pts_for - exStat1.on_pts_against) ∧
      (mkRow exCtx "0022400001" exState 1 exStat1).off_diff =
        (teamTotalActual exCtx exState exStat1.team_id -
          teamTotalActual exCtx exState (if exStat1.team_id = 100 then 200 else 100)) -
          (exStat1.on_pts_for - exStat1.on_pts_against) := by
  obtain ⟨h1, h2, h3⟩ := claim_C10_official_override_inert 100 200 [1, 2, 3, 4, 5]
    [11, 12, 13, 14, 15] (fun _ => none) (fun _ => none) (1/4) (11/10) exFeed
    "0022400001" exState 1 exStat1 (Option.some_get _).symm (Option.some_get _).symm
  exact ⟨(Option.some_get _).symm, (Option.some_get _).symm, h1, h2, h3⟩

/-! #### Correctness of the integer insertion sort -/

theorem insertIntSorted_perm (x : ℤ) (l : List ℤ) :
    (insertIntSorted x l).Perm (x :: l) := by
  induction l with
  | nil => exact List.Perm.refl _
  | cons y rest ih =>
    unfold insertIntSorted
    by_cases h : y ≤ x
    · rw [if_pos h]
      exact (ih.cons y).trans (List.Perm.swap x y rest)
    · rw [if_neg h]

theorem insertIntSorted_sorted (x : ℤ) (l : List ℤ)
    (h : l.Sorted (· ≤ ·)) : (insertIntSorted x l).Sorted (· ≤ ·) := by
  induction l with
  | nil => simp [insertIntSorted]
  | cons y rest ih =>
    rw [List.sorted_cons] at h
    unfold insertIntSorted
    by_cases hyx : y ≤ x
    · rw [if_pos hyx, List.sorted_cons]
      constructor
      · intro b hb
        have hmem := (insertIntSorted_perm x rest).mem_iff.mp hb
        rcases List.mem_cons.mp hmem with rfl | hb'
        · exact hyx
        · exact h.1 b hb'
      · exact ih h.2
    · rw [if_neg hyx, List.sorted_cons]
      push_neg at hyx
      constructor
      · intro b hb
        rcases List.mem_cons.mp hb with rfl | hb'
        · exact le_of_lt hyx
        · exact le_trans (le_of_lt hyx) (h.1 b hb')
      · exact List.sorted_cons.mpr h

theorem sortInts_perm (l : List ℤ) : (sortInts l).Perm l := by
  induction l with
  | nil => exact List.Perm.refl _
  | cons x rest ih =>
    have h1 : sortInts (x :: rest) = insertIntSorted x (sortInts rest) := rfl
    rw [h1]
    exact (insertIntSorted_perm x (sortInts rest)).trans (ih.cons x)

theorem sortInts_sorted (l : List ℤ) : (sortInts l).Sorted (· ≤ ·) := by
  induction l with
  | nil => simp [sortInts]
  | cons x rest ih => exact insertIntSorted_sorted x (sortInts rest) ih

theorem sortInts_length (l : List ℤ) : (sortInts l).length = l.length :=
  (sortInts_perm l).length_eq

/-- C6: _close_stint appends a stint record if and only if the pending
interval has strictly positive duration and both lineups hold exactly five
players; the record then carries the two sorted lineup 5-tuples and the raw
and adjusted point deltas accumulated since the previous boundary, and a
degenerate interval leaves the stint list unchanged (no error state
exists: closeStintF is total). -/
theorem claim_C6_stint_emission (ctx : Ctx) (s : ScanState) :
    ((∃ r : Stint,
        (closeStintF ctx s).stints = s.stints ++ [r] ∧
        r.seconds = s.prev_elapsed - s.stint_start_elapsed ∧
        0 < r.seconds ∧
        r.home_lineup.Sorted (· ≤ ·) ∧
        r.home_lineup.Perm (dictGetD s.lineups ctx.homeId []) ∧
        r.home_lineup.length = 5 ∧
        r.away_lineup.Sorted (· ≤ ·) ∧
        r.away_lineup.Perm (dictGetD s.lineups ctx.awayId []) ∧
        r.away_lineup.length = 5 ∧
        r.home_pts = s.prev_home - s.stint_start_home ∧
        r.away_pts = s.prev_away - s.stint_start_away ∧
        r.home_pts_adj = s.adj_home - s.stint_start_home_adj ∧
        r.away_pts_adj = s.adj_away - s.stint_start_away_adj) ↔
      (0 < s.prev_elapsed - s.stint_start_elapsed ∧
        (dictGetD s.lineups ctx.homeId []).length = 5 ∧
        (dictGetD s.lineups ctx.awayId []).length = 5)) ∧
    (¬(0 < s.prev_elapsed - s.stint_start_elapsed ∧
        (dictGetD s.lineups ctx.homeId []).length = 5 ∧
        (dictGetD s.lineups ctx.awayId []).length = 5) →
      (closeStintF ctx s).stints = s.stints) := by
  by_cases hcond : 0 < s.prev_elapsed - s.stint_start_elapsed ∧
      (dictGetD s.lineups ctx.homeId []).length = 5 ∧
      (dictGetD s.lineups ctx.awayId []).length = 5
  · constructor
    · constructor
      · intro _; exact hcond
      · intro _
        refine ⟨{ home_lineup := sortInts (dictGetD s.lineups ctx.homeId [])
                  away_lineup := sortInts (dictGetD s.lineups ctx.awayId [])
                  seconds := s.prev_elapsed - s.stint_start_elapsed
                  home_pts := s.prev_home - s.stint_start_home
                  away_pts := s.prev_away - s.stint_start_away
                  home_pts_adj := s.adj_home - s.stint_start_home_adj
                  away_pts_adj := s.adj_away - s.stint_start_away_adj
                  start_elapsed := s.stint_start_elapsed
                  end_elapsed := s.prev_elapsed
                  start_period := s.stint_start_period
                  start_clock := s.stint_start_clock
                  end_period := s.last_period
                  end_clock := s.last_clock
                  start_home_score := s.stint_start_home
                  start_away_score := s.stint_start_away
                  end_home_score := s.prev_home
                  end_away_score := s.prev_away
                  start_home_score_adj := s.stint_start_home_adj
                  start_away_score_adj := s.stint_start_away_adj
                  end_home_score_adj := s.adj_home
                  end_away_score_adj := s.adj_away },
          ?_, rfl, hcond.1, sortInts_sorted _, sortInts_perm _, ?_,
          sortInts_sorted _, sortInts_perm _, ?_, rfl, rfl, rfl, rfl⟩
        · simp only [closeStintF]
          rw [if_pos hcond]
        · rw [sortInts_length, hcond.2.1]
        · rw [sortInts_length, hcond.2.2]
    · intro hneg; exact absurd hcond hneg
  · constructor
    · constructor
      · intro hex
        obtain ⟨r, hr, _⟩ := hex
        simp only [closeStintF] at hr
        rw [if_neg hcond] at hr
        exact absurd hr (by simp)
      · intro hc; exact absurd hc hcond
    · intro _
      simp only [closeStintF]
      rw [if_neg hcond]

/-- Witness for C6: on the example game's final state the interval after
the substitution is degenerate (the home lineup has four players), so it
is dropped without error. -/
theorem claim_C6_witness :
    ¬(0 < exState.prev_elapsed - exState.stint_start_elapsed ∧
        (dictGetD exState.lineups 100 []).length = 5 ∧
        (dictGetD exState.lineups 200 []).length = 5) ∧
      (closeStintF exCtx exState).stints = exState.stints :=
  ⟨by decide!, (claim_C6_stint_emission exCtx exState).2 (by decide!)⟩

/-! #### Bookkeeping fields untouched by the attribution blocks -/

theorem applyPoints_stints (ctx : Ctx) (tid : ℤ) (pts : ℚ) (adj : Bool) (s : ScanState) :
    (applyPoints ctx tid pts adj s).stints = s.stints := by
  unfold applyPoints
  split_ifs <;> rfl

theorem applyPoints_start_elapsed (ctx : Ctx) (tid : ℤ) (pts : ℚ) (adj : Bool) (s : ScanState) :
    (applyPoints ctx tid pts adj s).stint_start_elapsed = s.stint_start_elapsed := by
  unfold applyPoints
  split_ifs <;> rfl

theorem applyPoints_prev_elapsed (ctx : Ctx) (tid : ℤ) (pts : ℚ) (adj : Bool) (s : ScanState) :
    (applyPoints ctx tid pts adj s).prev_elapsed = s.prev_elapsed := by
  unfold applyPoints
  split_ifs <;> rfl

theorem scoreBlock_stints (ctx : Ctx) (a : Action) (s : ScanState) :
    (scoreBlock ctx a s).stints = s.stints := by
  unfold scoreBlock
  dsimp only
  split_ifs <;> simp only [applyPoints_stints]

theorem scoreBlock_start_elapsed (ctx : Ctx) (a : Action) (s : ScanState) :
    (scoreBlock ctx a s).stint_start_elapsed = s.stint_start_elapsed := by
  unfold scoreBlock
  dsimp only
  split_ifs <;> simp only [applyPoints_start_elapsed]

theorem scoreBlock_prev_elapsed (ctx : Ctx) (a : Action) (s : ScanState) :
    (scoreBlock ctx a s).prev_elapsed = s.prev_elapsed := by
  unfold scoreBlock
  dsimp only
  split_ifs <;> simp only [applyPoints_prev_elapsed]

theorem threePtBlock_stints (ctx : Ctx) (a : Action) (s : ScanState) :
    (threePtBlock ctx a s).stints = s.stints := by
  unfold threePtBlock
  by_cases h1 : optLower a.actionType = ("3pt")
  · rw [if_pos h1]
    cases a.teamId with
    | none => cases a.personId <;> rfl
    | some t =>
      cases a.personId with
      | none => rfl
      | some pid =>
        dsimp only
        split_ifs <;> simp only [applyPoints_stints]
  · rw [if_neg h1]

theorem threePtBlock_start_elapsed (ctx : Ctx) (a : Action) (s : ScanState) :
    (threePtBlock ctx a s).stint_start_elapsed = s.stint_start_elapsed := by
  unfold threePtBlock
  by_cases h1 : optLower a.actionType = ("3pt")
  · rw [if_pos h1]
    cases a.teamId with
    | none => cases a.personId <;> rfl
    | some t =>
      cases a.personId with
      | none => rfl
      | some pid =>
        dsimp only
        split_ifs <;> simp only [applyPoints_start_elapsed]
  · rw [if_neg h1]

theorem threePtBlock_prev_elapsed (ctx : Ctx) (a : Action) (s : ScanState) :
    (threePtBlock ctx a s).prev_elapsed = s.prev_elapsed := by
  unfold threePtBlock
  by_cases h1 : optLower a.actionType = ("3pt")
  · rw [if_pos h1]
    cases a.teamId with
    | none => cases a.personId <;> rfl
    | some t =>
      cases a.personId with
      | none => rfl
      | some pid =>
        dsimp only
        split_ifs <;> simp only [applyPoints_prev_elapsed]
  · rw [if_neg h1]

theorem timeBlock_stints (ctx : Ctx) (a : Action) (s : ScanState) :
    (timeBlock ctx a s).stints = s.stints := by
  unfold timeBlock
  cases elapsed_game_seconds a.period a.clock with
  | none => rfl
  | some e => dsimp only; split_ifs <;> rfl

theorem timeBlock_start_elapsed (ctx : Ctx) (a : Action) (s : ScanState) :
    (timeBlock ctx a s).stint_start_elapsed = s.stint_start_elapsed := by
  unfold timeBlock
  cases elapsed_game_seconds a.period a.clock with
  | none => rfl
  | some e => dsimp only; split_ifs <;> rfl

theorem timeBlock_prev_le (ctx : Ctx) (a : Action) (s : ScanState) :
    s.prev_elapsed ≤ (timeBlock ctx a s).prev_elapsed := by
  unfold timeBlock
  cases elapsed_game_seconds a.period a.clock with
  | none => dsimp only; omega
  | some e =>
    dsimp only
    split_ifs with h h2
    · exact h
    · exact h
    · exact le_refl s.prev_elapsed

theorem sumSeconds_append_single (l : List Stint) (r : Stint) :
    sumSeconds (l ++ [r]) = sumSeconds l + r.seconds := by
  unfold sumSeconds
  rw [List.foldl_append]
  rfl

/-- The stint bookkeeping invariant: emitted stints sum to at most the
stint-start marker, which never exceeds the current elapsed time, and each
stint records a positive duration equal to its elapsed span. -/
theorem stintAccounting_preserved (ctx : Ctx) :
    ∀ (fuel : ℕ) (acts : List Action) (s s' : ScanState),
      scanFuel ctx fuel acts s = some s' →
      (sumSeconds s.stints ≤ s.stint_start_elapsed ∧
        s.stint_start_elapsed ≤ s.prev_elapsed ∧
        (∀ st ∈ s.stints, st.seconds = st.end_elapsed - st.start_elapsed ∧ 0 < st.seconds)) →
      (sumSeconds s'.stints ≤ s'.stint_start_elapsed ∧
        s'.stint_start_elapsed ≤ s'.prev_elapsed ∧
        (∀ st ∈ s'.stints, st.seconds = st.end_elapsed - st.start_elapsed ∧ 0 < st.seconds)) := by
  have hClose : ∀ s : ScanState,
      (sumSeconds s.stints ≤ s.stint_start_elapsed ∧
        s.stint_start_elapsed ≤ s.prev_elapsed ∧
        (∀ st ∈ s.stints, st.seconds = st.end_elapsed - st.start_elapsed ∧ 0 < st.seconds)) →
      (sumSeconds (closeStintF ctx s).stints ≤ (closeStintF ctx s).stint_start_elapsed ∧
        (closeStintF ctx s).stint_start_elapsed ≤ (closeStintF ctx s).prev_elapsed ∧
        (∀ st ∈ (closeStintF ctx s).stints,
          st.seconds = st.end_elapsed - st.start_elapsed ∧ 0 < st.seconds)) := by
    intro s ⟨h1, h2, h3⟩
    simp only [closeStintF]
    by_cases hcond : 0 < s.prev_elapsed - s.stint_start_elapsed ∧
        (dictGetD s.lineups ctx.homeId []).length = 5 ∧
        (dictGetD s.lineups ctx.awayId []).length = 5
    · rw [if_pos hcond]
      refine ⟨?_, le_refl _, ?_⟩
      · rw [sumSeconds_append_single]
        dsimp only
        omega
      · intro st hst
        rcases List.mem_append.mp hst with hin | hky
        · exact h3 st hin
        · rw [List.mem_singleton] at hky
          subst hky
          exact ⟨rfl, by dsimp only; omega⟩
    · rw [if_neg hcond]
      exact ⟨le_trans h1 h2, le_refl _, h3⟩
  refine scanFuel_preserve ctx _ ?_ hClose ?_ ?_ ?_
  · intro a s hP
    refine ⟨?_, ?_, ?_⟩
    · rw [timeBlock_stints, timeBlock_start_elapsed]; exact hP.1
    · rw [timeBlock_start_elapsed]
      exact le_trans hP.2.1 (timeBlock_prev_le ctx a s)
    · rw [timeBlock_stints]; exact hP.2.2
  · intro a s hP
    refine ⟨?_, ?_, ?_⟩
    · rw [scoreBlock_stints, scoreBlock_start_elapsed]; exact hP.1
    · rw [scoreBlock_start_elapsed, scoreBlock_prev_elapsed]; exact hP.2.1
    · rw [scoreBlock_stints]; exact hP.2.2
  · intro a s hP
    refine ⟨?_, ?_, ?_⟩
    · rw [threePtBlock_stints, threePtBlock_start_elapsed]; exact hP.1
    · rw [threePtBlock_start_elapsed, threePtBlock_prev_elapsed]; exact hP.2.1
    · rw [threePtBlock_stints]; exact hP.2.2
  · intro s m hP
    exact hP

/-- C2 counterexample: on the explicit example feed the emitted stints sum
to 100 seconds, while the scan's total elapsed time is 200 seconds (and a
full regulation game is 2880); the interval [100, 200] was dropped because
the home lineup had four players, so the stints do not partition game time
and their seconds do not sum to the elapsed total. -/
theorem claim_C2_counterexample :
    computeGame 100 200 [1, 2, 3, 4, 5] [11, 12, 13, 14, 15]
        (fun _ => none) (fun _ => none) (1/4) (11/10) exFeed = some exState ∧
      sumSeconds exState.stints = 100 ∧
      exState.prev_elapsed = 200 ∧
      (100 : ℤ) ≠ 200 ∧ (100 : ℤ) ≠ 2880 :=
  ⟨(Option.some_get _).symm, by decide!, by decide!, by decide, by decide⟩

/-- C2 amended: every emitted stint spans a strictly positive interval
with seconds = end_elapsed - start_elapsed, and the sum of seconds over a
game's stints is at most the elapsed game seconds at the last processed
action; equality (a gap-free partition) can fail, because an interval
whose boundary lineups are not exactly five a side is dropped with its
time. -/
theorem claim_C2_amended_stint_time_bound
    (homeId awayId : ℤ) (startersHome startersAway : List ℤ)
    (playerState shotMix : ℤ → Option (ℚ × ℚ)) (orbRate ppp : ℚ)
    (actions : List Action) (s' : ScanState)
    (hc : computeGame homeId awayId startersHome startersAway playerState shotMix
      orbRate ppp actions = some s') :
    (∀ st ∈ s'.stints, st.seconds = st.end_elapsed - st.start_elapsed ∧ 0 < st.seconds) ∧
      sumSeconds s'.stints ≤ s'.prev_elapsed := by
  unfold computeGame at hc
  by_cases he : (sort_actions actions).isEmpty
  · simp [he] at hc
  · simp only [he, Bool.false_eq_true, if_false] at hc
    cases hsf : scanFuel (mkCtx homeId awayId playerState shotMix orbRate ppp actions)
        (sort_actions actions).length (sort_actions actions)
        (initState (mkCtx homeId awayId playerState shotMix orbRate ppp actions)
          startersHome startersAway) with
    | none => rw [hsf] at hc; simp at hc
    | some sf =>
      rw [hsf] at hc
      simp only [Option.map_some', Option.some.injEq] at hc
      subst hc
      have hmid := stintAccounting_preserved
        (mkCtx homeId awayId playerState shotMix orbRate ppp actions)
        (sort_actions actions).length (sort_actions actions) _ sf hsf
        (by
          refine ⟨?_, ?_, ?_⟩
          · simp [initState, sumSeconds]
          · simp [initState]
          · intro st hst; simp [initState] at hst)
      have hfin : ∀ s0 : ScanState,
          (sumSeconds s0.stints ≤ s0.stint_start_elapsed ∧
            s0.stint_start_elapsed ≤ s0.prev_elapsed ∧
            (∀ st ∈ s0.stints, st.seconds = st.end_elapsed - st.start_elapsed ∧ 0 < st.seconds)) →
          (∀ st ∈ (closeStintF (mkCtx homeId awayId playerState shotMix orbRate ppp actions) s0).stints,
            st.seconds = st.end_elapsed - st.start_elapsed ∧ 0 < st.seconds) ∧
          sumSeconds (closeStintF (mkCtx homeId awayId playerState shotMix orbRate ppp actions) s0).stints ≤
            (closeStintF (mkCtx homeId awayId playerState shotMix orbRate ppp actions) s0).prev_elapsed := by
        intro s0 h0
        simp only [closeStintF]
        by_cases hcond : 0 < s0.prev_elapsed - s0.stint_start_elapsed ∧
            (dictGetD s0.lineups
              (mkCtx homeId awayId playerState shotMix orbRate ppp actions).homeId []).length = 5 ∧
            (dictGetD s0.lineups
              (mkCtx homeId awayId playerState shotMix orbRate ppp actions).awayId []).length = 5
        · rw [if_pos hcond]
          constructor
          · intro st hst
            rcases List.mem_append.mp hst with hin | hky
            · exact h0.2.2 st hin
            · rw [List.mem_singleton] at hky
              subst hky
              exact ⟨rfl, by dsimp only; omega⟩
          · rw [sumSeconds_append_single]
            have h01 := h0.1
            have h02 := h0.2.1
            dsimp only
            omega
        · rw [if_neg hcond]
          exact ⟨h0.2.2, le_trans h0.1 h0.2.1⟩
      exact hfin sf hmid

/-- Witness for the amended C2 on the example game. -/
theorem claim_C2_witness :
    computeGame 100 200 [1, 2, 3, 4, 5] [11, 12, 13, 14, 15]
        (fun _ => none) (fun _ => none) (1/4) (11/10) exFeed = some exState ∧
      (∀ st ∈ exState.stints, st.seconds = st.end_elapsed - st.start_elapsed ∧ 0 < st.seconds) ∧
      sumSeconds exState.stints ≤ exState.prev_elapsed :=
  ⟨(Option.some_get _).symm,
    (claim_C2_amended_stint_time_bound 100 200 [1, 2, 3, 4, 5] [11, 12, 13, 14, 15]
      (fun _ => none) (fun _ => none) (1/4) (11/10) exFeed exState
      (Option.some_get _).symm).1,
    (claim_C2_amended_stint_time_bound 100 200 [1, 2, 3, 4, 5] [11, 12, 13, 14, 15]
      (fun _ => none) (fun _ => none) (1/4) (11/10) exFeed exState
      (Option.some_get _).symm).2⟩

/-! #### Lineup-size accounting (C4) -/

theorem dictGet?_dictSet {β : Type} (m : List (ℤ × β)) (k q : ℤ) (v : β) :
    dictGet? (dictSet m k v) q = if q = k then some v else dictGet? m q := by
  induction m with
  | nil => simp [dictSet, dictGet?]
  | cons e rest ih =>
    unfold dictSet
    by_cases hk : k = e.1
    · rw [if_pos hk]
      by_cases hq : q = k
      · simp [dictGet?, hq]
      · have hq2 : ¬q = e.1 := by omega
        simp [dictGet?, hq, hq2]
    · rw [if_neg hk]
      by_cases hq : q = e.1
      · have hqk : ¬q = k := by omega
        have hek : ¬e.1 = k := by omega
        simp [dictGet?, hq, hqk, hek]
      · simp [dictGet?, hq, ih]

theorem setAdd_length (l : List ℤ) (x : ℤ) : (setAdd l x).length ≤ l.length + 1 := by
  unfold setAdd
  split_ifs
  · omega
  · simp

theorem dictModify?_length_le (m m' : List (ℤ × List ℤ)) (t : ℤ)
    (f : List ℤ → List ℤ) (c : ℕ)
    (hf : ∀ l : List ℤ, (f l).length ≤ l.length + c)
    (h : dictModify? m t f = some m') :
    ∀ k, (dictGetD m' k []).length ≤ (dictGetD m k []).length + c := by
  unfold dictModify? at h
  cases hg : dictGet? m t with
  | none => rw [hg] at h; simp at h
  | some l =>
    rw [hg] at h
    simp only [Option.some.injEq] at h
    subst h
    intro k
    unfold dictGetD
    rw [dictGet?_dictSet]
    by_cases hk : k = t
    · rw [if_pos hk, hk, hg]
      simpa using hf l
    · rw [if_neg hk]
      omega

theorem applyOuts_length (t : ℤ) :
    ∀ (outs : List Action) (m m' : List (ℤ × List ℤ)),
      applyOuts t outs m = some m' →
      ∀ k, (dictGetD m' k []).length ≤ (dictGetD m k []).length := by
  intro outs
  induction outs with
  | nil =>
    intro m m' h k
    simp only [applyOuts, Option.some.injEq] at h
    subst h
    exact le_refl _
  | cons b rest ih =>
    intro m m' h k
    unfold applyOuts at h
    cases hb : b.personId with
    | none =>
      rw [hb] at h
      exact ih m m' h k
    | some pid =>
      rw [hb] at h
      dsimp only at h
      cases hmod : dictModify? m t (fun l => l.erase pid) with
      | none => rw [hmod] at h; simp at h
      | some m1 =>
        rw [hmod] at h
        have h1 := dictModify?_length_le m m1 t _ 0
          (fun l => by simpa using List.length_erase_le pid l) hmod k
        have h2 := ih m1 m' h k
        omega

theorem applyIns_length (t : ℤ) :
    ∀ (ins : List Action) (m m' : List (ℤ × List ℤ)),
      applyIns t ins m = some m' →
      ∀ k, (dictGetD m' k []).length ≤ (dictGetD m k []).length + ins.length := by
  intro ins
  induction ins with
  | nil =>
    intro m m' h k
    simp only [applyIns, Option.some.injEq] at h
    subst h
    simp
  | cons b rest ih =>
    intro m m' h k
    unfold applyIns at h
    cases hb : b.personId with
    | none =>
      rw [hb] at h
      have := ih m m' h k
      simp only [List.length_cons]
      omega
    | some pid =>
      rw [hb] at h
      dsimp only at h
      cases hmod : dictModify? m t (fun l => setAdd l pid) with
      | none => rw [hmod] at h; simp at h
      | some m1 =>
        rw [hmod] at h
        have h1 := dictModify?_length_le m m1 t _ 1 (fun l => setAdd_length l pid) hmod k
        have h2 := ih m1 m' h k
        simp only [List.length_cons]
        omega

/-- The scan grows a lineup by at most one player per substitution-in
action of the feed. -/
theorem scanFuel_lineup_bound (ctx : Ctx) :
    ∀ (fuel : ℕ) (acts : List Action) (s s' : ScanState),
      scanFuel ctx fuel acts s = some s' →
      ∀ t, (dictGetD s'.lineups t []).length ≤
        (dictGetD s.lineups t []).length + countSubIns acts := by
  intro fuel
  induction fuel with
  | zero =>
    intro acts s s' h t
    cases acts with
    | nil =>
      simp only [scanFuel, Option.some.injEq] at h
      subst h
      simp [countSubIns]
    | cons a rest => simp [scanFuel] at h
  | succ f ih =>
    intro acts s s' h t
    cases acts with
    | nil =>
      simp only [scanFuel, Option.some.injEq] at h
      subst h
      simp [countSubIns]
    | cons a rest =>
      simp only [scanFuel] at h
      by_cases hsub : optLower a.actionType = ("substitution")
      · rw [if_pos hsub] at h
        have hl : (closeStintF ctx (timeBlock ctx a s)).lineups = s.lineups := by
          rw [closeStintF_lineups, timeBlock_lineups]
        cases hteam : a.teamId with
        | none =>
          rw [hteam] at h
          have hb := ih rest _ s' h t
          rw [hl] at hb
          have hc : countSubIns rest ≤ countSubIns (a :: rest) := by
            unfold countSubIns
            rw [List.countP_cons]
            omega
          omega
        | some t0 =>
          rw [hteam] at h
          dsimp only at h
          cases ho : applyOuts t0
              ((a :: List.takeWhile (batchPred t0 a.period a.clock) rest).filter
                (fun b => subTypeLower b = ("out")))
              (closeStintF ctx (timeBlock ctx a s)).lineups with
          | none => rw [ho] at h; simp at h
          | some m1 =>
            rw [ho] at h
            dsimp only at h
            cases hi : applyIns t0
                ((a :: List.takeWhile (batchPred t0 a.period a.clock) rest).filter
                  (fun b => subTypeLower b = ("in"))) m1 with
            | none => rw [hi] at h; simp at h
            | some m2 =>
              rw [hi] at h
              dsimp only at h
              have hrec : (dictGetD s'.lineups t []).length ≤
                  (dictGetD m2 t []).length +
                    countSubIns (List.dropWhile (batchPred t0 a.period a.clock) rest) :=
                ih _ _ s' h t
              have houts := applyOuts_length t0 _ _ _ ho t
              rw [hl] at houts
              have hins := applyIns_length t0 _ _ _ hi t
              have hall : ∀ b ∈ a :: List.takeWhile (batchPred t0 a.period a.clock) rest,
                  optLower b.actionType = ("substitution") := by
                intro b hbmem
                rcases List.mem_cons.mp hbmem with rfl | hbt
                · exact hsub
                · have hp := List.mem_takeWhile_imp hbt
                  simp only [batchPred, Bool.and_eq_true, decide_eq_true_eq] at hp
                  exact hp.1.1.1
              have hlen : ((a :: List.takeWhile (batchPred t0 a.period a.clock) rest).filter
                  (fun b => subTypeLower b = ("in"))).length =
                    countSubIns (a :: List.takeWhile (batchPred t0 a.period a.clock) rest) := by
                unfold countSubIns
                rw [← List.countP_eq_length_filter]
                apply List.countP_congr
                intro b hbmem
                simp only [Bool.and_eq_true, decide_eq_true_eq]
                constructor
                · intro hin; exact ⟨hall b hbmem, hin⟩
                · intro hpair; exact hpair.2
              have hcnt : countSubIns (a :: rest) =
                  countSubIns (a :: List.takeWhile (batchPred t0 a.period a.clock) rest) +
                    countSubIns (List.dropWhile (batchPred t0 a.period a.clock) rest) := by
                unfold countSubIns
                conv_lhs =>
                  rw [show a :: rest =
                    (a :: List.takeWhile (batchPred t0 a.period a.clock) rest) ++
                      List.dropWhile (batchPred t0 a.period a.clock) rest from by
                    rw [List.cons_append, List.takeWhile_append_dropWhile]]
                rw [List.countP_append]
              omega
      · rw [if_neg hsub] at h
        have hb := ih rest _ s' h t
        have hl2 : (threePtBlock ctx a (scoreBlock ctx a (timeBlock ctx a s))).lineups =
            s.lineups := by
          rw [threePtBlock_lineups, scoreBlock_lineups, timeBlock_lineups]
        rw [hl2] at hb
        have hc : countSubIns rest ≤ countSubIns (a :: rest) := by
          unfold countSubIns
          rw [List.countP_cons]
          omega
        omega

/-- C4 counterexample: a feed whose substitution batch has an "in" with no
matching "out" leaves the home lineup with six players, refuting the claim
that the lineup sizes never exceed five. -/
theorem claim_C4_counterexample :
    computeGame 100 200 [1, 2, 3, 4, 5] [11, 12, 13, 14, 15]
        (fun _ => none) (fun _ => none) (1/4) (11/10) c4Feed = some c4State ∧
      (dictGetD c4State.lineups 100 []).length = 6 ∧ ¬(6 ≤ 5) :=
  ⟨(Option.some_get _).symm, by decide!, by decide⟩

/-- C4 amended: after the pre-game starter assignment each lineup holds
exactly the distinct starters supplied (so exactly five when five distinct
starters are given and the team ids differ), and during the scan a lineup's
size is bounded by its initial size plus the number of substitution-in
actions processed; the constant bound five is not an invariant of the
code, since a batch with more ins than outs grows the lineup. -/
theorem claim_C4_amended_lineup_size (ctx : Ctx)
    (startersHome startersAway : List ℤ) (hne : ctx.homeId ≠ ctx.awayId) :
    (startersHome.eraseDups.length = 5 →
      (dictGetD (initState ctx startersHome startersAway).lineups ctx.homeId []).length = 5) ∧
    (startersAway.eraseDups.length = 5 →
      (dictGetD (initState ctx startersHome startersAway).lineups ctx.awayId []).length = 5) ∧
    (∀ (fuel : ℕ) (acts : List Action) (s s' : ScanState),
      scanFuel ctx fuel acts s = some s' →
      ∀ t, (dictGetD s'.lineups t []).length ≤
        (dictGetD s.lineups t []).length + countSubIns acts) := by
  refine ⟨?_, ?_, scanFuel_lineup_bound ctx⟩
  · intro h5
    unfold initState dictGetD
    dsimp only
    rw [dictGet?_dictSet]
    rw [if_neg hne, dictGet?_dictSet, if_pos rfl]
    simpa using h5
  · intro h5
    unfold initState dictGetD
    dsimp only
    rw [dictGet?_dictSet, if_pos rfl]
    simpa using h5

/-- Witness for the amended C4 on the concrete six-man feed. -/
theorem claim_C4_witness :
    (100 : ℤ) ≠ 200 ∧
      ([1, 2, 3, 4, 5] : List ℤ).eraseDups.length = 5 ∧
      (dictGetD (initState c4Ctx [1, 2, 3, 4, 5] [11, 12, 13, 14, 15]).lineups 100 []).length = 5 ∧
      c4Scan = some c4ScanState ∧
      (dictGetD c4ScanState.lineups 100 []).length ≤
        (dictGetD (initState c4Ctx [1, 2, 3, 4, 5] [11, 12, 13, 14, 15]).lineups 100 []).length +
          countSubIns (sort_actions c4Feed) :=
  ⟨by decide, by decide,
    (claim_C4_amended_lineup_size c4Ctx [1, 2, 3, 4, 5] [11, 12, 13, 14, 15]
      (by decide!)).1 (by decide),
    (Option.some_get _).symm,
    (claim_C4_amended_lineup_size c4Ctx [1, 2, 3, 4, 5] [11, 12, 13, 14, 15]
      (by decide!)).2.2 (sort_actions c4Feed).length (sort_actions c4Feed) _ c4ScanState
      (Option.some_get _).symm 100⟩

/-! #### Substitution-batch semantics (C3) -/

theorem dictSet_dictSet {β : Type} (m : List (ℤ × β)) (k : ℤ) (v w : β) :
    dictSet (dictSet m k v) k w = dictSet m k w := by
  induction m with
  | nil => simp [dictSet]
  | cons e rest ih =>
    unfold dictSet
    by_cases hk : k = e.1
    · simp [dictSet, hk]
    · simp [dictSet, hk, ih]

theorem dictSet_self {β : Type} (m : List (ℤ × β)) (k : ℤ) (v : β)
    (h : dictGet? m k = some v) : dictSet m k v = m := by
  induction m with
  | nil => simp [dictGet?] at h
  | cons e rest ih =>
    unfold dictGet? at h
    unfold dictSet
    by_cases hk : k = e.1
    · rw [if_pos hk] at h
      rw [if_pos hk]
      simp only [Option.some.injEq] at h
      rw [hk, ← h]
    · rw [if_neg hk] at h
      rw [if_neg hk, ih h]

theorem dictModify?_eq {β : Type} (m : List (ℤ × β)) (k : ℤ) (f : β → β) (v : β)
    (h : dictGet? m k = some v) : dictModify? m k f = some (dictSet m k (f v)) := by
  unfold dictModify?
  rw [h]

theorem setAdd_mem (l : List ℤ) (y x : ℤ) : x ∈ setAdd l y ↔ x ∈ l ∨ x = y := by
  unfold setAdd
  split_ifs with hy
  · constructor
    · intro hx; exact Or.inl hx
    · intro hx
      rcases hx with hx | rfl
      · exact hx
      · exact hy
  · simp

theorem foldErase_mem (pids : List ℤ) :
    ∀ L : List ℤ, L.Nodup →
      (pids.foldl (fun l pid => l.erase pid) L).Nodup ∧
      (∀ x, x ∈ pids.foldl (fun l pid => l.erase pid) L ↔ x ∈ L ∧ x ∉ pids) := by
  induction pids with
  | nil =>
    intro L hL
    exact ⟨hL, fun x => by simp⟩
  | cons p ps ih =>
    intro L hL
    have hstep := ih (L.erase p) (hL.erase p)
    refine ⟨hstep.1, fun x => ?_⟩
    rw [List.foldl_cons]
    rw [hstep.2 x]
    rw [hL.mem_erase_iff]
    simp only [List.mem_cons]
    constructor
    · rintro ⟨⟨hxp, hxL⟩, hxps⟩
      exact ⟨hxL, fun hc => hc.elim hxp hxps⟩
    · rintro ⟨hxL, hnot⟩
      exact ⟨⟨fun hc => hnot (Or.inl hc), hxL⟩, fun hc => hnot (Or.inr hc)⟩

theorem foldAdd_mem (pids : List ℤ) :
    ∀ (L : List ℤ) (x : ℤ),
      x ∈ pids.foldl (fun l pid => setAdd l pid) L ↔ x ∈ L ∨ x ∈ pids := by
  induction pids with
  | nil => intro L x; simp
  | cons p ps ih =>
    intro L x
    rw [List.foldl_cons, ih (setAdd L p) x, setAdd_mem]
    simp only [List.mem_cons]
    tauto

theorem applyOuts_eq (t : ℤ) :
    ∀ (outs : List Action) (m : List (ℤ × List ℤ)) (L : List ℤ),
      dictGet? m t = some L →
      applyOuts t outs m =
        some (dictSet m t
          ((outs.filterMap (fun b => b.personId)).foldl (fun l pid => l.erase pid) L)) := by
  intro outs
  induction outs with
  | nil =>
    intro m L h
    simp only [applyOuts, List.filterMap_nil, List.foldl_nil, dictSet_self m t L h]
  | cons b rest ih =>
    intro m L h
    unfold applyOuts
    cases hb : b.personId with
    | none =>
      simp only [List.filterMap_cons, hb]
      exact ih m L h
    | some pid =>
      simp only [List.filterMap_cons, hb]
      rw [dictModify?_eq m t _ L h]
      dsimp only
      have hg : dictGet? (dictSet m t (L.erase pid)) t = some (L.erase pid) := by
        rw [dictGet?_dictSet, if_pos rfl]
      rw [ih (dictSet m t (L.erase pid)) (L.erase pid) hg, dictSet_dictSet]
      rfl

theorem applyIns_eq (t : ℤ) :
    ∀ (ins : List Action) (m : List (ℤ × List ℤ)) (L : List ℤ),
      dictGet? m t = some L →
      applyIns t ins m =
        some (dictSet m t
          ((ins.filterMap (fun b => b.personId)).foldl (fun l pid => setAdd l pid) L)) := by
  intro ins
  induction ins with
  | nil =>
    intro m L h
    simp only [applyIns, List.filterMap_nil, List.foldl_nil, dictSet_self m t L h]
  | cons b rest ih =>
    intro m L h
    unfold applyIns
    cases hb : b.personId with
    | none =>
      simp only [List.filterMap_cons, hb]
      exact ih m L h
    | some pid =>
      simp only [List.filterMap_cons, hb]
      rw [dictModify?_eq m t _ L h]
      dsimp only
      have hg : dictGet? (dictSet m t (setAdd L pid)) t = some (setAdd L pid) := by
        rw [dictGet?_dictSet, if_pos rfl]
      rw [ih (dictSet m t (setAdd L pid)) (setAdd L pid) hg, dictSet_dictSet]
      rfl

/-- C3: reaching a substitution action whose teamId t is a lineups key
consumes the maximal run of consecutive substitution actions with the same
raw (teamId, period, clock) as one atomic batch, and continues the scan
from a state whose only change is that team t's lineup becomes
(old minus all out personIds) union (all in personIds) — every discard
applied before any add, other teams untouched; a non-substitution action
is processed by the time/score/3PT blocks, none of which changes any
lineup, and no batch is ever treated as a full lineup replacement: a
member of the old lineup that is not discarded stays. -/
theorem claim_C3_substitution_batch_semantics (ctx : Ctx) :
    (∀ (fuel : ℕ) (a : Action) (rest : List Action) (s : ScanState) (t : ℤ) (L : List ℤ),
      optLower a.actionType = ("substitution") →
      a.teamId = some t →
      dictGet? s.lineups t = some L →
      L.Nodup →
      (scanFuel ctx (fuel + 1) (a :: rest) s =
          scanFuel ctx fuel (rest.dropWhile (batchPred t a.period a.clock))
            { closeStintF ctx (timeBlock ctx a s) with
              lineups := dictSet s.lineups t
                ((batchInIds (a :: rest.takeWhile (batchPred t a.period a.clock))).foldl
                  (fun l pid => setAdd l pid)
                  ((batchOutIds (a :: rest.takeWhile (batchPred t a.period a.clock))).foldl
                    (fun l pid => l.erase pid) L)) } ∧
        (∀ x : ℤ,
          x ∈ (batchInIds (a :: rest.takeWhile (batchPred t a.period a.clock))).foldl
              (fun l pid => setAdd l pid)
              ((batchOutIds (a :: rest.takeWhile (batchPred t a.period a.clock))).foldl
                (fun l pid => l.erase pid) L) ↔
            (x ∈ L ∧ x ∉ batchOutIds (a :: rest.takeWhile (batchPred t a.period a.clock))) ∨
              x ∈ batchInIds (a :: rest.takeWhile (batchPred t a.period a.clock))) ∧
        (∀ k : ℤ, k ≠ t →
          dictGet? (dictSet s.lineups t
            ((batchInIds (a :: rest.takeWhile (batchPred t a.period a.clock))).foldl
              (fun l pid => setAdd l pid)
              ((batchOutIds (a :: rest.takeWhile (batchPred t a.period a.clock))).foldl
                (fun l pid => l.erase pid) L))) k = dictGet? s.lineups k))) ∧
    (∀ (b : Action) (s₀ : ScanState),
      (threePtBlock ctx b (scoreBlock ctx b (timeBlock ctx b s₀))).lineups = s₀.lineups ∧
      (optLower b.actionType ≠ ("substitution") →
        ∀ (f : ℕ) (rest' : List Action),
          scanFuel ctx (f + 1) (b :: rest') s₀ =
            scanFuel ctx f rest' (threePtBlock ctx b (scoreBlock ctx b (timeBlock ctx b s₀))))) := by
  constructor
  · intro fuel a rest s t L hsub hteam hL hnodup
    have hl2 : (closeStintF ctx (timeBlock ctx a s)).lineups = s.lineups := by
      rw [closeStintF_lineups, timeBlock_lineups]
    refine ⟨?_, ?_, ?_⟩
    · conv_lhs => simp only [scanFuel]
      rw [if_pos hsub, hteam]
      dsimp only
      have hL2 : dictGet? (closeStintF ctx (timeBlock ctx a s)).lineups t = some L := by
        rw [hl2]; exact hL
      rw [applyOuts_eq t _ _ L hL2]
      dsimp only
      have hL3 : ∀ v : List ℤ,
          dictGet? (dictSet (closeStintF ctx (timeBlock ctx a s)).lineups t v) t = some v := by
        intro v
        rw [dictGet?_dictSet, if_pos rfl]
      rw [applyIns_eq t _ _ _ (hL3 _)]
      dsimp only
      rw [dictSet_dictSet, hl2]
      rfl
    · intro x
      rw [foldAdd_mem, (foldErase_mem _ L hnodup).2 x]
    · intro k hk
      rw [dictGet?_dictSet, if_neg hk]
  · intro b s₀
    constructor
    · rw [threePtBlock_lineups, scoreBlock_lineups, timeBlock_lineups]
    · intro hnsub f rest'
      conv_lhs => simp only [scanFuel]
      rw [if_neg hnsub]

/-- Witness for C3: the substitution batch of the example feed removes
player 5 from the five-man home lineup and adds nobody. -/
theorem claim_C3_witness :
    optLower c3SubAction.actionType = ("substitution") ∧
      c3SubAction.teamId = some 100 ∧
      dictGet? (initState exCtx [1, 2, 3, 4, 5] [11, 12, 13, 14, 15]).lineups 100 =
        some [1, 2, 3, 4, 5] ∧
      ([1, 2, 3, 4, 5] : List ℤ).Nodup ∧
      ((5 : ℤ) ∈ (batchInIds (c3SubAction :: List.takeWhile
            (batchPred 100 c3SubAction.period c3SubAction.clock) [])).foldl
          (fun l pid => setAdd l pid)
          ((batchOutIds (c3SubAction :: List.takeWhile
            (batchPred 100 c3SubAction.period c3SubAction.clock) [])).foldl
            (fun l pid => l.erase pid) [1, 2, 3, 4, 5]) ↔
        ((5 : ℤ) ∈ ([1, 2, 3, 4, 5] : List ℤ) ∧ (5 : ℤ) ∉
            batchOutIds (c3SubAction :: List.takeWhile
              (batchPred 100 c3SubAction.period c3SubAction.clock) [])) ∨
          (5 : ℤ) ∈ batchInIds (c3SubAction :: List.takeWhile
            (batchPred 100 c3SubAction.period c3SubAction.clock) [])) :=
  ⟨by decide!, rfl, by decide!, by decide,
    ((claim_C3_substitution_batch_semantics exCtx).1 0 c3SubAction []
      (initState exCtx [1, 2, 3, 4, 5] [11, 12, 13, 14, 15]) 100 [1, 2, 3, 4, 5]
      (by decide!) rfl (by decide!) (by decide)).2.1 5⟩

/-! #### 3PT attribution (C5) -/

theorem bumpLedger_mem (info : ℤ → Option (String × ℤ)) (stats : ℤ → Option PStat)
    (L : List ℤ) (tid : ℤ) (f : PStat → PStat) (q : ℤ) (h : q ∈ L) :
    bumpLedger info stats L tid f q = some (f (ensureStat info stats q tid)) := by
  unfold bumpLedger
  rw [if_pos h]

theorem bumpLedger_not_mem (info : ℤ → Option (String × ℤ)) (stats : ℤ → Option PStat)
    (L : List ℤ) (tid : ℤ) (f : PStat → PStat) (q : ℤ) (h : q ∉ L) :
    bumpLedger info stats L tid f q = stats q := by
  unfold bumpLedger
  rw [if_neg h]

theorem adjForOf_some (stats : ℤ → Option PStat) (q : ℤ) (p : PStat)
    (h : stats q = some p) : adjForOf stats q = p.on_pts_for_adj := by
  unfold adjForOf
  rw [h]

theorem adjAgainstOf_some (stats : ℤ → Option PStat) (q : ℤ) (p : PStat)
    (h : stats q = some p) : adjAgainstOf stats q = p.on_pts_against_adj := by
  unfold adjAgainstOf
  rw [h]

theorem ensureStat_for_adj (info : ℤ → Option (String × ℤ)) (stats : ℤ → Option PStat)
    (pid tid : ℤ) :
    (ensureStat info stats pid tid).on_pts_for_adj = adjForOf stats pid := by
  unfold ensureStat adjForOf
  cases stats pid <;> rfl

theorem ensureStat_against_adj (info : ℤ → Option (String × ℤ)) (stats : ℤ → Option PStat)
    (pid tid : ℤ) :
    (ensureStat info stats pid tid).on_pts_against_adj = adjAgainstOf stats pid := by
  unfold ensureStat adjAgainstOf
  cases stats pid <;> rfl

/-- _apply_points with adjusted=True: adds the delta to the for-ledger of
the team lineup and the against-ledger of the opposing lineup, and leaves
the running tallies alone. -/
theorem applyPoints_adj_true (ctx : Ctx) (t : ℤ) (d : ℚ) (s : ScanState) (Lt : List ℤ)
    (hLt : dictGet? s.lineups t = some Lt) :
    (∀ q ∈ Lt, adjForOf (applyPoints ctx t d true s).stats q = adjForOf s.stats q + d) ∧
    (∀ q ∈ dictGetD s.lineups (if t = ctx.homeId then ctx.awayId else ctx.homeId) [],
      adjAgainstOf (applyPoints ctx t d true s).stats q = adjAgainstOf s.stats q + d) ∧
    (applyPoints ctx t d true s).adj_home = s.adj_home ∧
    (applyPoints ctx t d true s).adj_away = s.adj_away := by
  have hLt2 : dictGetD s.lineups t [] = Lt := by
    unfold dictGetD
    rw [hLt]
    rfl
  by_cases hd : d = 0
  · have hres : applyPoints ctx t d true s = s := by
      unfold applyPoints
      rw [if_pos hd]
    rw [hres]
    subst hd
    exact ⟨fun q _ => by ring, fun q _ => by ring, rfl, rfl⟩
  · have hres : applyPoints ctx t d true s =
        { s with stats :=
            (bumpLedger ctx.playerInfo
              (bumpLedger ctx.playerInfo s.stats Lt t
                (fun p => { p with on_pts_for_adj := p.on_pts_for_adj + d }))
              (dictGetD s.lineups (if t = ctx.homeId then ctx.awayId else ctx.homeId) [])
              (if t = ctx.homeId then ctx.awayId else ctx.homeId)
              (fun p => { p with on_pts_against_adj := p.on_pts_against_adj + d })) } := by
      unfold applyPoints
      rw [if_neg hd, if_neg (by rw [hLt]; simp), hLt2]
      rfl
    rw [hres]
    refine ⟨?_, ?_, rfl, rfl⟩
    · intro q hq
      have e2 : bumpLedger ctx.playerInfo s.stats Lt t
          (fun p => { p with on_pts_for_adj := p.on_pts_for_adj + d }) q =
          some { ensureStat ctx.playerInfo s.stats q t with
            on_pts_for_adj := (ensureStat ctx.playerInfo s.stats q t).on_pts_for_adj + d } :=
        bumpLedger_mem _ _ _ _ _ q hq
      by_cases hqo : q ∈ dictGetD s.lineups
          (if t = ctx.homeId then ctx.awayId else ctx.homeId) []
      · rw [adjForOf_some _ q _ (bumpLedger_mem _ _ _ _ _ q hqo)]
        show (ensureStat ctx.playerInfo
          (bumpLedger ctx.playerInfo s.stats Lt t
            (fun p => { p with on_pts_for_adj := p.on_pts_for_adj + d })) q
          (if t = ctx.homeId then ctx.awayId else ctx.homeId)).on_pts_for_adj = _
        rw [ensureStat_for_adj, adjForOf_some _ q _ e2]
        show (ensureStat ctx.playerInfo s.stats q t).on_pts_for_adj + d = _
        rw [ensureStat_for_adj]
      · unfold adjForOf
        dsimp only
        rw [bumpLedger_not_mem _ _ _ _ _ q hqo, e2]
        show (ensureStat ctx.playerInfo s.stats q t).on_pts_for_adj + d = _
        rw [ensureStat_for_adj]
        rfl
    · intro q hqo
      rw [adjAgainstOf_some _ q _ (bumpLedger_mem _ _ _ _ _ q hqo)]
      show (ensureStat ctx.playerInfo
        (bumpLedger ctx.playerInfo s.stats Lt t
          (fun p => { p with on_pts_for_adj := p.on_pts_for_adj + d })) q
        (if t = ctx.homeId then ctx.awayId else ctx.homeId)).on_pts_against_adj + d = _
      rw [ensureStat_against_adj]
      by_cases hqt : q ∈ Lt
      · have e2 : bumpLedger ctx.playerInfo s.stats Lt t
            (fun p => { p with on_pts_for_adj := p.on_pts_for_adj + d }) q =
            some { ensureStat ctx.playerInfo s.stats q t with
              on_pts_for_adj := (ensureStat ctx.playerInfo s.stats q t).on_pts_for_adj + d } :=
          bumpLedger_mem _ _ _ _ _ q hqt
        rw [adjAgainstOf_some _ q _ e2]
        show (ensureStat ctx.playerInfo s.stats q t).on_pts_against_adj + d = _
        rw [ensureStat_against_adj]
      · unfold adjAgainstOf
        rw [bumpLedger_not_mem _ _ _ _ _ q hqt]

/-- C5: on a "3pt" action with teamId and personId present, where the
shooting team is the home or away side (the ids differing), the 3PT block
adds adjDelta = (expectedMakeProbability - actualMake) * (3 - orb*ppp) to
the adjusted for-ledger of every player in the shooting team's lineup, to
the adjusted against-ledger of every player in the opposing lineup, and to
the shooting team's running adjusted-score tally. -/
theorem claim_C5_three_pt_attribution (ctx : Ctx) (a : Action) (s : ScanState)
    (t pid : ℤ) (Lt : List ℤ)
    (hne : ctx.homeId ≠ ctx.awayId)
    (htype : optLower a.actionType = ("3pt"))
    (hteam : a.teamId = some t)
    (hpid : a.personId = some pid)
    (hside : t = ctx.homeId ∨ t = ctx.awayId)
    (hLt : dictGet? s.lineups t = some Lt) :
    (∀ q ∈ Lt,
      adjForOf (threePtBlock ctx a s).stats q =
        adjForOf s.stats q +
          (expected_make_prob ctx.shotMix ctx.playerState pid (classify_area a)
              (classify_shot_type a) -
            (if optLower a.shotResult = ("made") then (1 : ℚ) else 0)) *
            (3 - ctx.orbRate * ctx.ppp)) ∧
    (∀ q ∈ dictGetD s.lineups (if t = ctx.homeId then ctx.awayId else ctx.homeId) [],
      adjAgainstOf (threePtBlock ctx a s).stats q =
        adjAgainstOf s.stats q +
          (expected_make_prob ctx.shotMix ctx.playerState pid (classify_area a)
              (classify_shot_type a) -
            (if optLower a.shotResult = ("made") then (1 : ℚ) else 0)) *
            (3 - ctx.orbRate * ctx.ppp)) ∧
    (t = ctx.homeId →
      (threePtBlock ctx a s).adj_home =
        s.adj_home +
          (expected_make_prob ctx.shotMix ctx.playerState pid (classify_area a)
              (classify_shot_type a) -
            (if optLower a.shotResult = ("made") then (1 : ℚ) else 0)) *
            (3 - ctx.orbRate * ctx.ppp) ∧
      (threePtBlock ctx a s).adj_away = s.adj_away) ∧
    (t = ctx.awayId →
      (threePtBlock ctx a s).adj_away =
        s.adj_away +
          (expected_make_prob ctx.shotMix ctx.playerState pid (classify_area a)
              (classify_shot_type a) -
            (if optLower a.shotResult = ("made") then (1 : ℚ) else 0)) *
            (3 - ctx.orbRate * ctx.ppp) ∧
      (threePtBlock ctx a s).adj_home = s.adj_home) := by
  have happ := applyPoints_adj_true ctx t
    ((expected_make_prob ctx.shotMix ctx.playerState pid (classify_area a)
        (classify_shot_type a) -
      (if optLower a.shotResult = ("made") then (1 : ℚ) else 0)) *
      (3 - ctx.orbRate * ctx.ppp)) s Lt hLt
  unfold threePtBlock
  rw [if_pos htype, hteam, hpid]
  dsimp only
  rcases hside with hhome | haway
  · rw [if_pos hhome]
    refine ⟨?_, ?_, ?_, ?_⟩
    · intro q hq
      exact happ.1 q hq
    · intro q hq
      exact happ.2.1 q hq
    · intro _
      exact ⟨by rw [happ.2.2.1], happ.2.2.2⟩
    · intro hc
      exact absurd (hhome ▸ hc : ctx.homeId = ctx.awayId) hne
  · have hnh : ¬t = ctx.homeId := fun hc => hne (hc ▸ haway ▸ rfl)
    rw [if_neg hnh, if_pos haway]
    refine ⟨?_, ?_, ?_, ?_⟩
    · intro q hq
      exact happ.1 q hq
    · intro q hq
      exact happ.2.1 q hq
    · intro hc
      exact absurd hc hnh
    · intro _
      exact ⟨by rw [happ.2.2.2], happ.2.2.1⟩

theorem claim_C5_witness :
    adjForOf (threePtBlock exCtx c5Action c5State).stats 1 =
      adjForOf c5State.stats 1 +
        (expected_make_prob exCtx.shotMix exCtx.playerState 1 (classify_area c5Action)
            (classify_shot_type c5Action) -
          (if optLower c5Action.shotResult = ("made") then (1 : ℚ) else 0)) *
          (3 - exCtx.orbRate * exCtx.ppp) ∧
    adjAgainstOf (threePtBlock exCtx c5Action c5State).stats 11 =
      adjAgainstOf c5State.stats 11 +
        (expected_make_prob exCtx.shotMix exCtx.playerState 1 (classify_area c5Action)
            (classify_shot_type c5Action) -
          (if optLower c5Action.shotResult = ("made") then (1 : ℚ) else 0)) *
          (3 - exCtx.orbRate * exCtx.ppp) ∧
    (threePtBlock exCtx c5Action c5State).adj_home =
      c5State.adj_home +
        (expected_make_prob exCtx.shotMix exCtx.playerState 1 (classify_area c5Action)
            (classify_shot_type c5Action) -
          (if optLower c5Action.shotResult = ("made") then (1 : ℚ) else 0)) *
          (3 - exCtx.orbRate * exCtx.ppp) ∧
    (threePtBlock exCtx c5Action c5State).adj_away = c5State.adj_away := by
  have h := claim_C5_three_pt_attribution exCtx c5Action c5State 100 1 [1, 2, 3, 4, 5]
    (by decide!) (by decide!) rfl rfl (Or.inl rfl) (by decide!)
  have hmem : (1 : ℤ) ∈ ([1, 2, 3, 4, 5] : List ℤ) := by decide
  have hmem2 : (11 : ℤ) ∈
      dictGetD c5State.lineups (if (100 : ℤ) = exCtx.homeId then exCtx.awayId else exCtx.homeId)
        [] := by decide!
  exact ⟨h.1 1 hmem, h.2.1 11 hmem2, (h.2.2.1 rfl).1, (h.2.2.1 rfl).2⟩

/-! #### Design matrix (C9) -/

theorem triFoldl_eq_sum (l : List (ℕ × ℤ × ℚ)) (c : ℚ) :
    l.foldl (fun acc t => acc + t.2.2) c = c + (l.map (fun t => t.2.2)).sum := by
  induction l generalizing c with
  | nil => simp
  | cons t l ih =>
    simp only [List.foldl_cons, List.map_cons, List.sum_cons, ih]
    ring

theorem eraseDupsLoop_mem (x : ℤ) : ∀ (as bs : List ℤ),
    (x ∈ List.eraseDups.loop as bs ↔ x ∈ as ∨ x ∈ bs) := by
  intro as
  induction as with
  | nil =>
    intro bs
    simp [List.eraseDups.loop]
  | cons a as ih =>
    intro bs
    have e2 : List.eraseDups.loop (a :: as) bs =
        match bs.elem a with
        | true => List.eraseDups.loop as bs
        | false => List.eraseDups.loop as (a :: bs) := rfl
    rw [e2]
    cases hb : bs.elem a with
    | true =>
      have ha : a ∈ bs := List.mem_of_elem_eq_true hb
      dsimp only
      rw [ih bs]
      constructor
      · rintro (h | h)
        · exact Or.inl (List.mem_cons_of_mem a h)
        · exact Or.inr h
      · rintro (h | h)
        · rcases List.mem_cons.mp h with h | h
          · exact Or.inr (h ▸ ha)
          · exact Or.inl h
        · exact Or.inr h
    | false =>
      dsimp only
      rw [ih (a :: bs)]
      constructor
      · rintro (h | h)
        · exact Or.inl (List.mem_cons_of_mem a h)
        · rcases List.mem_cons.mp h with h | h
          · exact Or.inl (h ▸ List.mem_cons_self a as)
          · exact Or.inr h
      · rintro (h | h)
        · rcases List.mem_cons.mp h with h | h
          · exact Or.inr (h ▸ List.mem_cons_self a bs)
          · exact Or.inl h
        · exact Or.inr (List.mem_cons_of_mem a h)

theorem mem_eraseDups (x : ℤ) (l : List ℤ) : x ∈ l.eraseDups ↔ x ∈ l := by
  have e : l.eraseDups = List.eraseDups.loop l [] := rfl
  rw [e, eraseDupsLoop_mem]
  simp

theorem mem_player_list (rows : List StintRow) (r : StintRow) (pid : ℤ)
    (hr : r ∈ rows) (hpid : pid ∈ (homeCols r ++ awayCols r).filterMap id) :
    pid ∈ player_list rows := by
  unfold player_list
  rw [(sortInts_perm _).mem_iff, mem_eraseDups, List.mem_flatMap]
  exact ⟨r, hr, hpid⟩

theorem tripletsFor_fst (R : List StintRow) (j : ℕ) (r : StintRow) :
    ∀ t ∈ tripletsFor R j r, t.1 = j := by
  intro t ht
  unfold tripletsFor at ht
  rcases List.mem_append.mp ht with h | h <;>
  · rcases List.mem_filterMap.mp h with ⟨pid, hpid, hsome⟩
    by_cases hm : pid ∈ player_list R
    · rw [if_pos hm] at hsome
      cases hsome
      rfl
    · rw [if_neg hm] at hsome
      cases hsome

theorem filter_tripletsFor_ne (R : List StintRow) (j : ℕ) (r : StintRow) (i : ℕ) (pid : ℤ)
    (hne : j ≠ i) :
    (tripletsFor R j r).filter
      (fun t => decide (t.1 = i) && decide (t.2.1 = pid)) = [] := by
  rw [List.filter_eq_nil_iff]
  intro t ht
  have hfst := tripletsFor_fst R j r t ht
  simp [hfst, hne]

theorem filter_tripletsFor_eq (R : List StintRow) (i : ℕ) (r : StintRow) (pid : ℤ) :
    (tripletsFor R i r).filter (fun t => decide (t.1 = i) && decide (t.2.1 = pid)) =
      (tripletsFor R i r).filter (fun t => decide (t.2.1 = pid)) := by
  apply List.filter_congr
  intro t ht
  have hfst := tripletsFor_fst R i r t ht
  simp [hfst]

theorem enumFrom_fst_le {α : Type} (l : List α) :
    ∀ (n : ℕ) (p : ℕ × α), p ∈ l.enumFrom n → n ≤ p.1 := by
  induction l with
  | nil =>
    intro n p h
    exact absurd h (by simp)
  | cons a as ih =>
    intro n p h
    rw [List.enumFrom_cons] at h
    rcases List.mem_cons.mp h with h | h
    · simp [h]
    · exact Nat.le_of_succ_le (ih (n + 1) p h)

theorem designTriplets_filter (R : List StintRow) (pid : ℤ) :
    ∀ (l : List StintRow) (n i : ℕ) (h : i < l.length),
      ((l.enumFrom n).flatMap (fun p => tripletsFor R p.1 p.2)).filter
          (fun t => decide (t.1 = (n + i)) && decide (t.2.1 = pid)) =
        (tripletsFor R (n + i) (l.get ⟨i, h⟩)).filter (fun t => decide (t.2.1 = pid)) := by
  intro l
  induction l with
  | nil =>
    intro n i h
    exact absurd h (Nat.not_lt_zero i)
  | cons r l ih =>
    intro n i h
    rw [List.enumFrom_cons, List.flatMap_cons, List.filter_append]
    cases i with
    | zero =>
      simp only [Nat.add_zero]
      have h2 : ((l.enumFrom (n + 1)).flatMap (fun p => tripletsFor R p.1 p.2)).filter
          (fun t => decide (t.1 = n) && decide (t.2.1 = pid)) = [] := by
        rw [List.filter_eq_nil_iff]
        intro t ht
        rcases List.mem_flatMap.mp ht with ⟨q, hq, htq⟩
        have h1 := tripletsFor_fst R q.1 q.2 t htq
        have h3 := enumFrom_fst_le l (n + 1) q hq
        have h4 : t.1 ≠ n := by omega
        simp [h4]
      rw [h2, List.append_nil, filter_tripletsFor_eq]
      rfl
    | succ j =>
      have e1 : n + (j + 1) = (n + 1) + j := by omega
      rw [e1, filter_tripletsFor_ne R n r ((n + 1) + j) pid (by omega), List.nil_append,
        ih (n + 1) j (Nat.lt_of_succ_lt_succ h)]
      rfl

theorem designEntry_eq (rows : List StintRow) (i : ℕ) (h : i < rows.length) (pid : ℤ) :
    designEntry rows i pid =
      (((tripletsFor rows i (rows.get ⟨i, h⟩)).filter
        (fun t => decide (t.2.1 = pid))).map (fun t => t.2.2)).sum := by
  unfold designEntry designTriplets
  have henum : rows.enum = rows.enumFrom 0 := rfl
  have hfil := designTriplets_filter rows pid rows 0 i h
  rw [Nat.zero_add] at hfil
  rw [henum, hfil, triFoldl_eq_sum, zero_add]

theorem sideTriplets_sum (PL : List ℤ) (i : ℕ) (v : ℚ) (pid : ℤ) (qs : List ℤ) :
    ((((qs.filterMap (fun q => if q ∈ PL then some (i, q, v) else none)).filter
        (fun t => decide (t.2.1 = pid))).map (fun t => t.2.2)).sum) =
      if pid ∈ PL then (qs.count pid : ℚ) * v else 0 := by
  induction qs with
  | nil =>
    simp
  | cons q qs ih =>
    rw [List.filterMap_cons]
    by_cases hq : q ∈ PL
    · rw [if_pos hq, List.filter_cons]
      by_cases hqp : q = pid
      · have hd : (decide (((i, q, v) : ℕ × ℤ × ℚ).2.1 = pid)) = true := by
          simpa using hqp
        rw [hd, if_pos rfl, List.map_cons, List.sum_cons, ih]
        have hp : pid ∈ PL := hqp ▸ hq
        rw [if_pos hp, if_pos hp, List.count_cons, if_pos (beq_iff_eq.mpr hqp)]
        dsimp only
        push_cast
        ring
      · have hd : (decide (((i, q, v) : ℕ × ℤ × ℚ).2.1 = pid)) = false := by
          simpa using hqp
        have hne : ¬((q == pid) = true) := by
          simp only [beq_iff_eq]
          exact hqp
        rw [hd, if_neg (by simp), ih, List.count_cons, if_neg hne, Nat.add_zero]
    · rw [if_neg hq, ih]
      by_cases hp : pid ∈ PL
      · have hne : ¬((q == pid) = true) := by
          simp only [beq_iff_eq]
          intro hc
          exact hq (by rw [hc]; exact hp)
        rw [if_pos hp, if_pos hp, List.count_cons, if_neg hne, Nat.add_zero]
      · rw [if_neg hp, if_neg hp]

theorem designEntry_counts (rows : List StintRow) (i : ℕ) (h : i < rows.length) (pid : ℤ) :
    designEntry rows i pid =
      if pid ∈ player_list rows then
        ((((homeCols (rows.get ⟨i, h⟩)).filterMap id).count pid : ℚ) -
          (((awayCols (rows.get ⟨i, h⟩)).filterMap id).count pid : ℚ))
      else 0 := by
  rw [designEntry_eq rows i h pid]
  unfold tripletsFor
  rw [List.filter_append, List.map_append, List.sum_append,
    sideTriplets_sum, sideTriplets_sum]
  by_cases hp : pid ∈ player_list rows
  · rw [if_pos hp, if_pos hp, if_pos hp]
    ring
  · rw [if_neg hp, if_neg hp, if_neg hp, add_zero]

theorem possessions_eq_of_min (r : StintRow) (hr : (10 : ℤ) ≤ r.seconds) :
    possessions r = (r.seconds : ℚ) / 24 := by
  unfold possessions
  apply max_eq_left
  have h10 : (10 : ℚ) ≤ (r.seconds : ℚ) := by exact_mod_cast hr
  linarith

theorem load_stints_seconds (m : ℤ) (rows0 : List StintRow) (r : StintRow)
    (hr : r ∈ load_stints m rows0) : m ≤ r.seconds := by
  unfold load_stints at hr
  have hmem := List.mem_filter.mp hr
  exact of_decide_eq_true hmem.2

/-- C9: for stints that passed the min_seconds=10 filter of load_stints,
build_design_matrix's CSR matrix has one row per stint; the row's entry is
+1 at each home player, -1 at each away player and 0 at every other player
column (the ten player cells of the row being pairwise distinct); the
target is the point differential divided by seconds/24 and multiplied by
100, and the weight is sqrt(seconds/24) - the 0.1 possession floor is
inactive on filtered rows. -/
theorem claim_C9_design_matrix (rows0 : List StintRow) (i : ℕ)
    (h : i < (load_stints 10 rows0).length)
    (hnd : (((homeCols ((load_stints 10 rows0).get ⟨i, h⟩)).filterMap id) ++
        ((awayCols ((load_stints 10 rows0).get ⟨i, h⟩)).filterMap id)).Nodup) :
    designRowCount (load_stints 10 rows0) = (load_stints 10 rows0).length ∧
    (∀ pid ∈ (homeCols ((load_stints 10 rows0).get ⟨i, h⟩)).filterMap id,
      designEntry (load_stints 10 rows0) i pid = 1) ∧
    (∀ pid ∈ (awayCols ((load_stints 10 rows0).get ⟨i, h⟩)).filterMap id,
      designEntry (load_stints 10 rows0) i pid = -1) ∧
    (∀ pid : ℤ, pid ∉ (homeCols ((load_stints 10 rows0).get ⟨i, h⟩)).filterMap id →
      pid ∉ (awayCols ((load_stints 10 rows0).get ⟨i, h⟩)).filterMap id →
      designEntry (load_stints 10 rows0) i pid = 0) ∧
    (∀ u : Bool, targetY u ((load_stints 10 rows0).get ⟨i, h⟩) =
      pointDiff u ((load_stints 10 rows0).get ⟨i, h⟩) /
        ((((load_stints 10 rows0).get ⟨i, h⟩).seconds : ℚ) / 24) * 100) ∧
    weightW ((load_stints 10 rows0).get ⟨i, h⟩) =
      Real.sqrt ((((((load_stints 10 rows0).get ⟨i, h⟩).seconds : ℚ) / 24 : ℚ)) : ℝ) := by
  have hsec : (10 : ℤ) ≤ ((load_stints 10 rows0).get ⟨i, h⟩).seconds :=
    load_stints_seconds 10 rows0 _ (List.get_mem _ _ _)
  obtain ⟨hndh, hnda, hdisj⟩ := List.nodup_append.mp hnd
  refine ⟨rfl, ?_, ?_, ?_, ?_, ?_⟩
  · intro pid hpid
    have hp : pid ∈ player_list (load_stints 10 rows0) :=
      mem_player_list _ _ pid (List.get_mem _ _ _)
        (by rw [List.filterMap_append]; exact List.mem_append_left _ hpid)
    rw [designEntry_counts _ i h pid, if_pos hp,
      List.count_eq_one_of_mem hndh hpid,
      List.count_eq_zero.mpr (fun hc => hdisj hpid hc)]
    norm_num
  · intro pid hpid
    have hp : pid ∈ player_list (load_stints 10 rows0) :=
      mem_player_list _ _ pid (List.get_mem _ _ _)
        (by rw [List.filterMap_append]; exact List.mem_append_right _ hpid)
    rw [designEntry_counts _ i h pid, if_pos hp,
      List.count_eq_one_of_mem hnda hpid,
      List.count_eq_zero.mpr (fun hc => hdisj hc hpid)]
    norm_num
  · intro pid hh ha
    rw [designEntry_counts _ i h pid, List.count_eq_zero.mpr hh, List.count_eq_zero.mpr ha]
    by_cases hp : pid ∈ player_list (load_stints 10 rows0)
    · rw [if_pos hp]
      norm_num
    · rw [if_neg hp]
  · intro u
    unfold targetY
    rw [possessions_eq_of_min _ hsec]
  · unfold weightW
    rw [possessions_eq_of_min _ hsec]

theorem claim_C9_witness :
    0 < (load_stints 10 c9Rows0).length ∧
    designRowCount (load_stints 10 c9Rows0) = 1 ∧
    designEntry (load_stints 10 c9Rows0) 0 1 = 1 ∧
    designEntry (load_stints 10 c9Rows0) 0 11 = -1 ∧
    designEntry (load_stints 10 c9Rows0) 0 99 = 0 ∧
    targetY true c9Row = 2 / ((48 : ℚ) / 24) * 100 ∧
    weightW c9Row = Real.sqrt ((((48 : ℤ) : ℚ) / 24 : ℚ) : ℝ) := by
  have h0 : 0 < (load_stints 10 c9Rows0).length := by decide!
  have hget : (load_stints 10 c9Rows0).get ⟨0, h0⟩ = c9Row := by
    have h1 : (load_stints 10 c9Rows0).get? 0 = some c9Row := by decide!
    have h2 := List.get?_eq_get h0
    rw [h1] at h2
    exact (Option.some.inj h2).symm
  have hnd0 : ((homeCols c9Row).filterMap id ++ (awayCols c9Row).filterMap id).Nodup := by
    decide
  rw [← hget] at hnd0
  have H := claim_C9_design_matrix c9Rows0 0 h0 hnd0
  have hm1 : (1 : ℤ) ∈ (homeCols c9Row).filterMap id := by decide
  have hm11 : (11 : ℤ) ∈ (awayCols c9Row).filterMap id := by decide
  have hn99h : (99 : ℤ) ∉ (homeCols c9Row).filterMap id := by decide
  have hn99a : (99 : ℤ) ∉ (awayCols c9Row).filterMap id := by decide
  rw [← hget] at hm1 hm11 hn99h hn99a
  refine ⟨h0, H.1.trans (by decide!), H.2.1 1 hm1, H.2.2.1 11 hm11,
    H.2.2.2.1 99 hn99h hn99a, ?_, ?_⟩
  · have ht := H.2.2.2.2.1 true
    rw [hget] at ht
    rw [ht]
    decide!
  · have hw := H.2.2.2.2.2
    rw [hget] at hw
    have hs : c9Row.seconds = (48 : ℤ) := rfl
    rw [hs] at hw
    exact hw


end Claims

end NBA
